import Mathlib

/-!
# Verification of the sarama consumer fetch pipeline

A shallow embedding of the consumer-side fetch-response handling of the
repository (package `sarama`): `partitionConsumer.parseMessages`,
`partitionConsumer.parseRecords`, `partitionConsumer.parseResponse`,
`brokerConsumer.handleResponses` and `brokerConsumer.fetchNewMessages`,
together with theorems checking the natural-language specification
against that code.

Conventions of the embedding:
* int64 quantities (offsets, timestamps, high water marks, producer ids)
  are `Int`; none of the verified code paths depend on int64 overflow.
* int32 quantities where overflow matters (`fetchSize`) use explicit
  wrap-around arithmetic (`wrap32`).
* byte strings (keys, values) are `List Nat`; the code never inspects
  them, it only moves them around.
* Go maps used as sets (`abortedProducerIDs`) are `List Int` with
  membership-tested insertion and filter-based deletion.
* decode-level accessors of `FetchResponseBlock` / `Records` that live in
  files of the repository outside `src/` (`numRecords`, `isPartial`,
  `getAbortedTransactions`, `LastOffset`, `isControl`, `getControlRecord`)
  are represented by fields holding their results, as documented on each
  definition.
-/

namespace Sarama

/-- Kafka error codes and internal sentinel errors used by the consumer.
Only the codes that the verified code paths distinguish are listed;
`other` stands for any remaining error value. -/
inductive KError where
  | noError
  | offsetOutOfRange
  | unknownTopicOrPartition
  | notLeaderForPartition
  | leaderNotAvailable
  | replicaNotAvailable
  | fencedLeaderEpoch
  | unknownLeaderEpoch
  | messageTooLarge
  | incompleteResponse
  | timedOut
  | other (code : Int)
deriving DecidableEq, Repr

/-- Consumer isolation levels (`ReadUncommitted` / `ReadCommitted`). -/
inductive IsolationLevel where
  | readUncommitted
  | readCommitted
deriving DecidableEq, Repr

/-- `ConsumerMessage` from the source: a Kafka message returned by the
consumer. -/
structure ConsumerMessage where
  headers : List (List Nat × List Nat)
  timestamp : Int
  blockTimestamp : Int
  key : List Nat
  value : List Nat
  topic : String
  partition : Int
  offset : Int
deriving DecidableEq, Repr

/-- A legacy wire message (`Message` in the source): version (magic),
timestamp, the `LogAppendTime` attribute bit, and opaque key/value. -/
structure Message where
  version : Int
  timestamp : Int
  logAppendTime : Bool
  key : List Nat
  value : List Nat
deriving DecidableEq, Repr

/-- One element of `msgBlock.Messages()`: a message carried at an
absolute-or-relative offset inside a legacy message block. -/
structure InnerMessage where
  offset : Int
  msg : Message
deriving DecidableEq, Repr

/-- A legacy `MessageBlock`: the outer offset, the outer message (whose
timestamp is the block timestamp), and the result of `Messages()` —
the singleton of itself for an uncompressed block, or the nested
decompressed messages of a compressed block. -/
structure MessageBlock where
  offset : Int
  msg : Message
  messages : List InnerMessage
deriving DecidableEq, Repr

/-- A legacy `MessageSet` (magic 0/1 container). -/
structure MessageSet where
  messages : List MessageBlock
deriving DecidableEq, Repr

/-- One record of a default (magic 2) record batch. -/
structure Record where
  offsetDelta : Int
  timestampDelta : Int
  key : List Nat
  value : List Nat
  headers : List (List Nat × List Nat)
deriving DecidableEq, Repr

/-- The type of a control record body (commit vs abort). -/
inductive ControlRecordType where
  | abort
  | commit
  | unknown
deriving DecidableEq, Repr

/-- A default (magic 2) `RecordBatch`.  `control` is the result of
`records.isControl()` and `controlType` the type of the control record
returned by `records.getControlRecord()`; both accessors live outside
`src/` and read exactly this decoded batch data. -/
structure RecordBatch where
  firstOffset : Int
  lastOffsetDelta : Int
  producerID : Int
  isTransactional : Bool
  control : Bool
  logAppendTime : Bool
  firstTimestamp : Int
  maxTimestamp : Int
  controlType : ControlRecordType
  records : List Record
deriving DecidableEq, Repr

/-- Modelled from the spec: `RecordBatch.LastOffset()` (defined outside
`src/`) returns the offset of the last record slot of the batch,
`firstOffset + lastOffsetDelta`. -/
def RecordBatch.lastOffset (b : RecordBatch) : Int :=
  b.firstOffset + b.lastOffsetDelta

/-- One entry of a block's `RecordsSet`: either a legacy message-set or a
default record batch (the `recordsType` discriminator of the source). -/
inductive Records where
  | legacyRecords (msgSet : MessageSet)
  | defaultRecords (batch : RecordBatch)
deriving DecidableEq, Repr

/-- Modelled from the spec: `Records.numRecords()` (defined outside
`src/`) counts the decoded entries of the container. -/
def Records.numRecords : Records → Nat
  | .legacyRecords msgSet => msgSet.messages.length
  | .defaultRecords batch => batch.records.length

/-- An aborted transaction advertised in a fetch-response block:
a producer id and the first offset of the aborted range. -/
structure AbortedTransaction where
  producerID : Int
  firstOffset : Int
deriving DecidableEq, Repr

/-- A fetch-response block for one (topic, partition).
`abortedTransactions` holds the result of `getAbortedTransactions()`
(the advertised list, sorted by first offset) and
`truncatedTrailingRecord` the result of `isPartial()` (whether the block
ends in a partial trailing batch); both accessors live outside `src/`. -/
structure FetchResponseBlock where
  err : KError
  highWaterMarkOffset : Int
  preferredReadReplica : Int
  recordsNextOffset : Option Int
  abortedTransactions : List AbortedTransaction
  truncatedTrailingRecord : Bool
  recordsSet : List Records
deriving DecidableEq, Repr

/-- Modelled from the spec: `FetchResponseBlock.numRecords()` (defined
outside `src/`) sums the record counts of the block's records set. -/
def FetchResponseBlock.numRecords (b : FetchResponseBlock) : Nat :=
  (b.recordsSet.map Records.numRecords).sum

/-- A fetch response: throttle time (milliseconds) and the per-topic,
per-partition blocks. -/
structure FetchResponse where
  throttleTimeMs : Int
  blocks : List (String × List (Int × FetchResponseBlock))
deriving DecidableEq, Repr

/-- Modelled from the spec: `FetchResponse.GetBlock` (defined outside
`src/`) looks up the block for a (topic, partition), `nil` when absent. -/
def FetchResponse.getBlock (r : FetchResponse) (topic : String) (partition : Int) :
    Option FetchResponseBlock :=
  match r.blocks.lookup topic with
  | none => none
  | some parts => parts.lookup partition

/-- Modelled from the spec: the sentinel `invalidPreferredReplicaID = -1`
meaning "use the leader". -/
def invalidPreferredReplicaID : Int := -1

/-- `math.MaxInt32`. -/
def maxInt32 : Int := 2 ^ 31 - 1

/-- Two's-complement wrap-around of an integer into the int32 range,
used where the source performs `int32` arithmetic that may overflow. -/
def wrap32 (x : Int) : Int :=
  (x + 2 ^ 31) % 2 ^ 32 - 2 ^ 31

/-- The mutable per-partition state of a `partitionConsumer` that the
parsing code reads and writes: topic, partition, offset cursor, fetch
size, high water mark and preferred read replica. -/
structure PCState where
  topic : String
  partition : Int
  offset : Int
  fetchSize : Int
  highWaterMarkOffset : Int
  preferredReadReplica : Int
deriving DecidableEq, Repr

/-- The configuration fields of `Config` consulted by the verified code:
`Consumer.Fetch.{Min,Default,Max}`, the isolation level, the rack id and
the broker version. -/
structure KafkaVersion where
  v0 : Nat
  v1 : Nat
  v2 : Nat
  v3 : Nat
deriving DecidableEq, Repr

/-- Modelled from the spec: `KafkaVersion.IsAtLeast` (defined outside
`src/`) compares the four version components lexicographically and
returns true when `a ≥ b`. -/
def isAtLeast (a b : KafkaVersion) : Bool :=
  if a.v0 > b.v0 then true
  else if a.v0 < b.v0 then false
  else if a.v1 > b.v1 then true
  else if a.v1 < b.v1 then false
  else if a.v2 > b.v2 then true
  else if a.v2 < b.v2 then false
  else if a.v3 > b.v3 then true
  else if a.v3 < b.v3 then false
  else true

def V0_9_0_0 : KafkaVersion := ⟨0, 9, 0, 0⟩

def V0_10_0_0 : KafkaVersion := ⟨0, 10, 0, 0⟩

def V0_10_1_0 : KafkaVersion := ⟨0, 10, 1, 0⟩

def V0_11_0_0 : KafkaVersion := ⟨0, 11, 0, 0⟩

def V1_0_0_0 : KafkaVersion := ⟨1, 0, 0, 0⟩

def V1_1_0_0 : KafkaVersion := ⟨1, 1, 0, 0⟩

def V2_0_0_0 : KafkaVersion := ⟨2, 0, 0, 0⟩

def V2_1_0_0 : KafkaVersion := ⟨2, 1, 0, 0⟩

def V2_3_0_0 : KafkaVersion := ⟨2, 3, 0, 0⟩

structure Config where
  fetchMin : Int
  fetchDefault : Int
  fetchMax : Int
  maxWaitTimeMs : Int
  isolationLevel : IsolationLevel
  rackID : String
  version : KafkaVersion
deriving DecidableEq, Repr

/-- The record loop of `partitionConsumer.parseRecords`: walk the batch's
records in order; a record whose absolute offset (`batch.FirstOffset +
rec.OffsetDelta`) is below the current offset cursor is skipped,
otherwise it is emitted and the cursor is set to its offset plus one. -/
def parseRecordsLoop (batch : RecordBatch) :
    PCState → List Record → PCState × List ConsumerMessage
  | st, [] => (st, [])
  | st, rec :: rest =>
    let offset := batch.firstOffset + rec.offsetDelta
    if offset < st.offset then
      parseRecordsLoop batch st rest
    else
      let timestamp :=
        if batch.logAppendTime then batch.maxTimestamp
        else batch.firstTimestamp + rec.timestampDelta
      let m : ConsumerMessage :=
        { headers := rec.headers
          timestamp := timestamp
          blockTimestamp := 0
          key := rec.key
          value := rec.value
          topic := st.topic
          partition := st.partition
          offset := offset }
      let res := parseRecordsLoop batch { st with offset := offset + 1 } rest
      (res.1, m :: res.2)

/-- `partitionConsumer.parseRecords`: run the record loop, and if no
record survived the offset filter, advance the offset cursor by one. -/
def parseRecords (st : PCState) (batch : RecordBatch) :
    PCState × List ConsumerMessage :=
  let res := parseRecordsLoop batch st batch.records
  if res.2.isEmpty then ({ res.1 with offset := res.1.offset + 1 }, res.2)
  else res

/-- The inner loop of `partitionConsumer.parseMessages` over
`msgBlock.Messages()`: for magic ≥ 1 messages the absolute offset is the
stored offset plus `msgBlock.Offset - lastInnerOffset`, and the
`LogAppendTime` bit replaces the timestamp with the outer block's;
messages below the offset cursor are skipped, the rest are emitted with
the cursor set past them. -/
def parseMessagesInner (blk : MessageBlock) :
    PCState → List InnerMessage → PCState × List ConsumerMessage
  | st, [] => (st, [])
  | st, im :: rest =>
    let base :=
      if 1 ≤ im.msg.version then
        blk.offset - ((blk.messages.getLast?.map InnerMessage.offset).getD 0)
      else 0
    let offset := im.offset + base
    let timestamp :=
      if 1 ≤ im.msg.version ∧ im.msg.logAppendTime then blk.msg.timestamp
      else im.msg.timestamp
    if offset < st.offset then
      parseMessagesInner blk st rest
    else
      let m : ConsumerMessage :=
        { headers := []
          timestamp := timestamp
          blockTimestamp := blk.msg.timestamp
          key := im.msg.key
          value := im.msg.value
          topic := st.topic
          partition := st.partition
          offset := offset }
      let res := parseMessagesInner blk { st with offset := offset + 1 } rest
      (res.1, m :: res.2)

/-- The outer loop of `partitionConsumer.parseMessages` over the message
blocks of the set. -/
def parseMessagesOuter : PCState → List MessageBlock → PCState × List ConsumerMessage
  | st, [] => (st, [])
  | st, blk :: rest =>
    let res1 := parseMessagesInner blk st blk.messages
    let res2 := parseMessagesOuter res1.1 rest
    (res2.1, res1.2 ++ res2.2)

/-- `partitionConsumer.parseMessages`: run both loops, and if no message
survived the offset filter, advance the offset cursor by one. -/
def parseMessages (st : PCState) (msgSet : MessageSet) :
    PCState × List ConsumerMessage :=
  let res := parseMessagesOuter st msgSet.messages
  if res.2.isEmpty then ({ res.1 with offset := res.1.offset + 1 }, res.2)
  else res

/-- The state threaded by `parseResponse`'s loop over a block's
`RecordsSet`: the aborted-producer set, the not-yet-consumed aborted
transactions, the partition-consumer state and the messages collected so
far. -/
structure LoopState where
  aborted : List Int
  pending : List AbortedTransaction
  child : PCState
  msgs : List ConsumerMessage
deriving DecidableEq, Repr

/-- The inner loop of `parseResponse` that consumes the pending aborted
transactions up to the last offset of the current batch: each pending
transaction whose first offset is at most `lastOffset` has its producer
id inserted into the set and is popped from the front of the list; the
loop stops at the first transaction past `lastOffset`. -/
def consumeAborted (lastOffset : Int) :
    List AbortedTransaction → List Int → List AbortedTransaction × List Int
  | [], aborted => ([], aborted)
  | txn :: rest, aborted =>
    if lastOffset < txn.firstOffset then (txn :: rest, aborted)
    else
      consumeAborted lastOffset rest
        (if txn.producerID ∈ aborted then aborted else aborted ++ [txn.producerID])

/-- The body of `parseResponse`'s loop over a block's `RecordsSet`.
A legacy entry goes through `parseMessages`.  A default entry first
consumes the pending aborted transactions up to its last offset, then
runs `parseRecords` (committing the offset cursor); a control batch then
only updates the aborted set (on an abort control record the batch's
producer id is removed) and exposes nothing, a transactional batch of an
aborted producer is dropped under `ReadCommitted`, and every other batch
has its parsed records appended to the output. -/
def processRecordsEntry (conf : Config) (ls : LoopState) : Records → LoopState
  | .legacyRecords msgSet =>
    let res := parseMessages ls.child msgSet
    { ls with child := res.1, msgs := ls.msgs ++ res.2 }
  | .defaultRecords batch =>
    let consumed := consumeAborted batch.lastOffset ls.pending ls.aborted
    let res := parseRecords ls.child batch
    if batch.control then
      { aborted :=
          if batch.controlType = ControlRecordType.abort then
            consumed.2.filter (fun pid => pid ≠ batch.producerID)
          else consumed.2
        pending := consumed.1
        child := res.1
        msgs := ls.msgs }
    else if conf.isolationLevel = IsolationLevel.readCommitted ∧
        batch.isTransactional = true ∧ batch.producerID ∈ consumed.2 then
      { aborted := consumed.2, pending := consumed.1, child := res.1, msgs := ls.msgs }
    else
      { aborted := consumed.2, pending := consumed.1, child := res.1,
        msgs := ls.msgs ++ res.2 }

/-- The outcome of one `parseResponse` call: the updated partition state,
the messages to deliver, the returned error (`responseResult`), and the
errors pushed through `sendError`. -/
structure ParseResult where
  state : PCState
  msgs : List ConsumerMessage
  err : Option KError
  sentErrors : List KError
deriving DecidableEq, Repr

/-- The preferred-read-replica step of `parseResponse`: when the block
advertises a replica other than the sentinel, record it. -/
def applyPreferred (st : PCState) (block : FetchResponseBlock) : PCState :=
  if block.preferredReadReplica ≠ invalidPreferredReplicaID then
    { st with preferredReadReplica := block.preferredReadReplica }
  else st

/-- The partial-trailing-batch branch of `parseResponse`: at the
configured maximum, emit `ErrMessageTooLarge` and skip one offset;
otherwise double the fetch size with int32 arithmetic, saturate at
`math.MaxInt32` on overflow, and clamp to the configured maximum when
one is set. -/
def handleTruncatedTrailing (conf : Config) (st : PCState) : ParseResult :=
  if conf.fetchMax > 0 ∧ st.fetchSize = conf.fetchMax then
    ⟨{ st with offset := st.offset + 1 }, [], none, [KError.messageTooLarge]⟩
  else
    let fs := wrap32 (2 * st.fetchSize)
    let fs := if fs < 0 then maxInt32 else fs
    let fs := if conf.fetchMax > 0 ∧ fs > conf.fetchMax then conf.fetchMax else fs
    ⟨{ st with fetchSize := fs }, [], none, []⟩

/-- The zero-records branch of `parseResponse`: grow the fetch size on a
partial trailing batch, otherwise advance the offset to the block's
`recordsNextOffset` when that does not exceed the high water mark. -/
def handleZeroRecords (conf : Config) (st : PCState) (block : FetchResponseBlock) :
    ParseResult :=
  if block.truncatedTrailingRecord then handleTruncatedTrailing conf st
  else
    match block.recordsNextOffset with
    | some n =>
      if n ≤ block.highWaterMarkOffset then
        ⟨{ st with offset := n }, [], none, []⟩
      else ⟨st, [], none, []⟩
    | none => ⟨st, [], none, []⟩

/-- The per-block body of `parseResponse`, after the block has been
located in the response. -/
def parseResponseBlock (conf : Config) (st : PCState) (block : FetchResponseBlock) :
    ParseResult :=
  if block.err ≠ KError.noError then ⟨st, [], some block.err, []⟩
  else
    let st := applyPreferred st block
    if block.numRecords = 0 then handleZeroRecords conf st block
    else
      let st := { st with fetchSize := conf.fetchDefault,
                          highWaterMarkOffset := block.highWaterMarkOffset }
      let ls := block.recordsSet.foldl (processRecordsEntry conf)
        ⟨[], block.abortedTransactions, st, []⟩
      ⟨ls.child, ls.msgs, none, []⟩

/-- `partitionConsumer.parseResponse`: the fetch-response parser for one
(topic, partition).  Follows the source line by line: throttled empty
responses are ignored; a missing block is `ErrIncompleteResponse`; a
block error is returned as is; an advertised preferred read replica is
recorded; a zero-record block either grows the fetch size (partial
trailing batch) or advances the offset to `recordsNextOffset` when that
is within the high water mark; otherwise the fetch size is reset, the
high water mark stored, and the records set is parsed with
transactional-abort filtering. -/
def parseResponse (conf : Config) (st : PCState) (response : FetchResponse) :
    ParseResult :=
  if response.throttleTimeMs ≠ 0 ∧ response.blocks.length = 0 then
    ⟨st, [], none, []⟩
  else
    match response.getBlock st.topic st.partition with
    | none => ⟨st, [], some KError.incompleteResponse, []⟩
    | some block => parseResponseBlock conf st block

/-- The per-subscription effects of `brokerConsumer.handleResponses` on a
recorded outcome: the error surfaced through `sendError` (if any),
whether the subscription's trigger channel was closed, whether a
redispatch was signalled on it, and whether the subscription was removed
from the broker's set. -/
structure HandleOutcome where
  sentError : Option KError
  closedTrigger : Bool
  signaledTrigger : Bool
  removed : Bool
deriving DecidableEq, Repr

/-- The classification chain of `brokerConsumer.handleResponses` for a
subscription whose recorded `responseResult` is non-nil: `errTimedOut`
is silently dropped from the set; `ErrOffsetOutOfRange` is surfaced,
its trigger closed, and the subscription dropped; the six retriable
broker errors are redispatched via the trigger with no user-visible
error; anything else is surfaced and redispatched. -/
def handleResponseResult (result : KError) : HandleOutcome :=
  if result = KError.timedOut then
    ⟨none, false, false, true⟩
  else if result = KError.offsetOutOfRange then
    ⟨some result, true, false, true⟩
  else if result = KError.unknownTopicOrPartition ∨
      result = KError.notLeaderForPartition ∨
      result = KError.leaderNotAvailable ∨
      result = KError.replicaNotAvailable ∨
      result = KError.fencedLeaderEpoch ∨
      result = KError.unknownLeaderEpoch then
    ⟨none, false, true, true⟩
  else
    ⟨some result, false, true, true⟩

/-- Modelled from the spec: `MaxResponseSize` (defined outside `src/`),
the `MaxBytes` value attached to fetch requests from version 3 on. -/
def MaxResponseSize : Int := 100 * 1024 * 1024

/-- The fields of a `FetchRequest` that `fetchNewMessages` fills in.
Zero values mirror Go's: version 0, no max bytes, `ReadUncommitted`,
session id and epoch 0, empty rack id. -/
structure FetchRequest where
  version : Int
  minBytes : Int
  maxWaitTime : Int
  maxBytes : Int
  isolation : IsolationLevel
  sessionID : Int
  sessionEpoch : Int
  rackID : String
deriving DecidableEq, Repr

/-- The version-negotiation half of `brokerConsumer.fetchNewMessages`:
build the fetch request, upgrading the version (and attaching the
fields each version adds) once for every satisfied broker-version
threshold, in ascending order, exactly as the chain of `IsAtLeast`
checks in the source. -/
def fetchNewMessagesRequest (conf : Config) : FetchRequest :=
  let r : FetchRequest :=
    { version := 0
      minBytes := conf.fetchMin
      maxWaitTime := conf.maxWaitTimeMs
      maxBytes := 0
      isolation := IsolationLevel.readUncommitted
      sessionID := 0
      sessionEpoch := 0
      rackID := "" }
  let r := if isAtLeast conf.version V0_9_0_0 then { r with version := 1 } else r
  let r := if isAtLeast conf.version V0_10_0_0 then { r with version := 2 } else r
  let r := if isAtLeast conf.version V0_10_1_0 then
    { r with version := 3, maxBytes := MaxResponseSize } else r
  let r := if isAtLeast conf.version V0_11_0_0 then
    { r with version := 5, isolation := conf.isolationLevel } else r
  let r := if isAtLeast conf.version V1_0_0_0 then { r with version := 6 } else r
  let r := if isAtLeast conf.version V1_1_0_0 then
    { r with version := 7, sessionID := 0, sessionEpoch := -1 } else r
  let r := if isAtLeast conf.version V2_0_0_0 then { r with version := 8 } else r
  let r := if isAtLeast conf.version V2_1_0_0 then { r with version := 10 } else r
  let r := if isAtLeast conf.version V2_3_0_0 then
    { r with version := 11, rackID := conf.rackID } else r
  r

/-- The fetch version the spec's table prescribes: the value associated
with the greatest satisfied broker-version threshold (0 when none is
satisfied).  Written from the spec's words, to be compared with the
sequential-upgrade code. -/
def specFetchVersion (v : KafkaVersion) : Int :=
  if isAtLeast v V2_3_0_0 then 11
  else if isAtLeast v V2_1_0_0 then 10
  else if isAtLeast v V2_0_0_0 then 8
  else if isAtLeast v V1_1_0_0 then 7
  else if isAtLeast v V1_0_0_0 then 6
  else if isAtLeast v V0_11_0_0 then 5
  else if isAtLeast v V0_10_1_0 then 3
  else if isAtLeast v V0_10_0_0 then 2
  else if isAtLeast v V0_9_0_0 then 1
  else 0

/-- The offsets of the records of a batch that are at or above a given
cursor, in batch order. -/
def qualifiedOffsets (batch : RecordBatch) (cursor : Int) : List Int :=
  (batch.records.map (fun r => batch.firstOffset + r.offsetDelta)).filter
    (fun o => cursor ≤ o)

/-- The absolute offset of an inner legacy message: the stored offset,
adjusted by `blockOffset - lastInnerOffset` for magic ≥ 1. -/
def innerOffset (blk : MessageBlock) (im : InnerMessage) : Int :=
  im.offset +
    (if 1 ≤ im.msg.version then
      blk.offset - ((blk.messages.getLast?.map InnerMessage.offset).getD 0)
    else 0)

/-! ## Concrete inputs used by scenario parts and witnesses -/

/-- A subscription state at offset 42 (spec test S1). -/
def s1State : PCState :=
  { topic := "t", partition := 0, offset := 42, fetchSize := 1024,
    highWaterMarkOffset := 0, preferredReadReplica := -1 }

/-- A batch with records at offsets 40, 41, 42, 43 (spec test S1). -/
def s1Batch : RecordBatch :=
  { firstOffset := 40, lastOffsetDelta := 3, producerID := 1, isTransactional := false,
    control := false, logAppendTime := false, firstTimestamp := 0, maxTimestamp := 0,
    controlType := ControlRecordType.unknown,
    records := [⟨0, 0, [], [], []⟩, ⟨1, 0, [], [], []⟩, ⟨2, 0, [], [], []⟩, ⟨3, 0, [], [], []⟩] }

/-- The message delivered at offset 42 in scenario S1. -/
def s1Msg42 : ConsumerMessage := ⟨[], 0, 0, [], [], "t", 0, 42⟩

/-- The message delivered at offset 43 in scenario S1. -/
def s1Msg43 : ConsumerMessage := ⟨[], 0, 0, [], [], "t", 0, 43⟩

/-- An empty, error-free block used by concrete responses. -/
def emptyBlock : FetchResponseBlock :=
  { err := KError.noError, highWaterMarkOffset := 0, preferredReadReplica := -1,
    recordsNextOffset := none, abortedTransactions := [],
    truncatedTrailingRecord := false, recordsSet := [] }

/-- A response carrying a block only for a different topic. -/
def c8Resp : FetchResponse := ⟨0, [("other", [(0, emptyBlock)])]⟩

/-- A default configuration used by concrete scenarios. -/
def baseConf : Config :=
  { fetchMin := 1, fetchDefault := 1024, fetchMax := 8192, maxWaitTimeMs := 250,
    isolationLevel := IsolationLevel.readUncommitted, rackID := "", version := V2_3_0_0 }

/-- A `ReadCommitted` configuration used by the transactional scenarios. -/
def rcConf : Config :=
  { baseConf with isolationLevel := IsolationLevel.readCommitted }

/-- A subscription state at offset 100. -/
def st100 : PCState :=
  { topic := "t", partition := 0, offset := 100, fetchSize := 1024,
    highWaterMarkOffset := 0, preferredReadReplica := -1 }

/-- A transactional two-record batch (offsets 100, 101) of producer 7. -/
def c6Batch : RecordBatch :=
  { firstOffset := 100, lastOffsetDelta := 1, producerID := 7, isTransactional := true,
    control := false, logAppendTime := false, firstTimestamp := 0, maxTimestamp := 0,
    controlType := ControlRecordType.unknown,
    records := [⟨0, 0, [], [], []⟩, ⟨1, 0, [], [], []⟩] }

/-- A block whose only batch is entirely part of an aborted transaction. -/
def c6Block : FetchResponseBlock :=
  { err := KError.noError, highWaterMarkOffset := 200, preferredReadReplica := -1,
    recordsNextOffset := none, abortedTransactions := [⟨7, 100⟩],
    truncatedTrailingRecord := false, recordsSet := [Records.defaultRecords c6Batch] }

/-- The response containing `c6Block`. -/
def c6Resp : FetchResponse := ⟨0, [("t", [(0, c6Block)])]⟩

/-- A batch whose only record is below offset 100. -/
def c6LowBatch : RecordBatch :=
  { firstOffset := 10, lastOffsetDelta := 0, producerID := 1, isTransactional := false,
    control := false, logAppendTime := false, firstTimestamp := 0, maxTimestamp := 0,
    controlType := ControlRecordType.unknown, records := [⟨0, 0, [], [], []⟩] }

/-- A block with zero records whose `recordsNextOffset` (10) is below the
subscription's current offset (100) yet within the high water mark. -/
def c4Block : FetchResponseBlock :=
  { err := KError.noError, highWaterMarkOffset := 200, preferredReadReplica := -1,
    recordsNextOffset := some 10, abortedTransactions := [],
    truncatedTrailingRecord := false, recordsSet := [] }

/-- The response containing `c4Block`. -/
def c4Resp : FetchResponse := ⟨0, [("t", [(0, c4Block)])]⟩

/-- The reset of the fetch size and the high-water-mark store performed
by the records path of `parseResponse` before the records loop. -/
def resetForRecords (conf : Config) (st : PCState) (block : FetchResponseBlock) : PCState :=
  { st with fetchSize := conf.fetchDefault,
            highWaterMarkOffset := block.highWaterMarkOffset }

/-- A zero-record block ending in a partial trailing batch. -/
def c3Block : FetchResponseBlock :=
  { err := KError.noError, highWaterMarkOffset := 0, preferredReadReplica := -1,
    recordsNextOffset := none, abortedTransactions := [],
    truncatedTrailingRecord := true, recordsSet := [] }

/-- The response containing `c3Block`. -/
def c3Resp : FetchResponse := ⟨0, [("t", [(0, c3Block)])]⟩

/-- One application of `parseResponse` to the partial-trailing response
under `baseConf` (default 1024, max 8192). -/
def c3Step (st : PCState) : PCState := (parseResponse baseConf st c3Resp).state

/-- A configuration with no fetch maximum (`Fetch.Max = 0`). -/
def noMaxConf : Config := { baseConf with fetchMax := 0 }

/-- A subscription state whose fetch size has saturated at
`math.MaxInt32`. -/
def satState : PCState :=
  { topic := "t", partition := 0, offset := 42, fetchSize := maxInt32,
    highWaterMarkOffset := 0, preferredReadReplica := -1 }

/-- Scenario S3, batch at offset 100: transactional, producer 7. -/
def c2BatchA : RecordBatch :=
  { firstOffset := 100, lastOffsetDelta := 0, producerID := 7, isTransactional := true,
    control := false, logAppendTime := false, firstTimestamp := 0, maxTimestamp := 0,
    controlType := ControlRecordType.unknown, records := [⟨0, 0, [], [], []⟩] }

/-- Scenario S3, batch at offset 101: the abort control batch of
producer 7. -/
def c2BatchB : RecordBatch :=
  { firstOffset := 101, lastOffsetDelta := 0, producerID := 7, isTransactional := true,
    control := true, logAppendTime := false, firstTimestamp := 0, maxTimestamp := 0,
    controlType := ControlRecordType.abort, records := [⟨0, 0, [], [], []⟩] }

/-- Scenario S3, batch at offset 102: a plain non-transactional batch. -/
def c2BatchC : RecordBatch :=
  { firstOffset := 102, lastOffsetDelta := 0, producerID := 9, isTransactional := false,
    control := false, logAppendTime := false, firstTimestamp := 0, maxTimestamp := 0,
    controlType := ControlRecordType.unknown, records := [⟨0, 0, [], [], []⟩] }

/-- Scenario S3's block: `abortedTransactions = [{producerId 7,
firstOffset 100}]` and the three batches above. -/
def c2Block : FetchResponseBlock :=
  { err := KError.noError, highWaterMarkOffset := 200, preferredReadReplica := -1,
    recordsNextOffset := none, abortedTransactions := [⟨7, 100⟩],
    truncatedTrailingRecord := false,
    recordsSet := [Records.defaultRecords c2BatchA, Records.defaultRecords c2BatchB,
      Records.defaultRecords c2BatchC] }

/-- The response containing `c2Block`. -/
def c2Resp : FetchResponse := ⟨0, [("t", [(0, c2Block)])]⟩

/-- The loop state `parseResponse` starts the records loop with on
scenario S3. -/
def c2Start : LoopState :=
  ⟨[], c2Block.abortedTransactions,
    resetForRecords rcConf (applyPreferred st100 c2Block) c2Block, []⟩

theorem parseRecordsLoop_nil (batch : RecordBatch) (st : PCState) :
    parseRecordsLoop batch st [] = (st, []) := rfl

theorem parseRecordsLoop_cons (batch : RecordBatch) (st : PCState) (rec : Record)
    (rest : List Record) :
    parseRecordsLoop batch st (rec :: rest) =
      if batch.firstOffset + rec.offsetDelta < st.offset then
        parseRecordsLoop batch st rest
      else
        ((parseRecordsLoop batch
            { st with offset := batch.firstOffset + rec.offsetDelta + 1 } rest).1,
          { headers := rec.headers
            timestamp := if batch.logAppendTime then batch.maxTimestamp
              else batch.firstTimestamp + rec.timestampDelta
            blockTimestamp := 0
            key := rec.key
            value := rec.value
            topic := st.topic
            partition := st.partition
            offset := batch.firstOffset + rec.offsetDelta } ::
          (parseRecordsLoop batch
            { st with offset := batch.firstOffset + rec.offsetDelta + 1 } rest).2) := by
  rfl

theorem parseRecordsLoop_state (batch : RecordBatch) (st : PCState) (recs : List Record) :
    (parseRecordsLoop batch st recs).1 =
      { st with offset := (parseRecordsLoop batch st recs).1.offset } := by
  induction recs generalizing st with
  | nil => simp [parseRecordsLoop_nil]
  | cons rec rest ih =>
    rw [parseRecordsLoop_cons]
    split
    · exact ih st
    · simpa using ih { st with offset := batch.firstOffset + rec.offsetDelta + 1 }

theorem parseRecordsLoop_mono (batch : RecordBatch) (st : PCState) (recs : List Record) :
    st.offset ≤ (parseRecordsLoop batch st recs).1.offset := by
  induction recs generalizing st with
  | nil => simp [parseRecordsLoop_nil]
  | cons rec rest ih =>
    rw [parseRecordsLoop_cons]
    split
    · exact ih st
    · rename_i h
      have h2 := ih { st with offset := batch.firstOffset + rec.offsetDelta + 1 }
      simp only at h2 ⊢
      omega

theorem parseRecordsLoop_msgs_ge (batch : RecordBatch) (st : PCState) (recs : List Record) :
    ∀ m ∈ (parseRecordsLoop batch st recs).2, st.offset ≤ m.offset := by
  induction recs generalizing st with
  | nil => simp [parseRecordsLoop_nil]
  | cons rec rest ih =>
    rw [parseRecordsLoop_cons]
    split
    · exact ih st
    · rename_i h
      intro m hm
      rcases List.mem_cons.mp hm with hm | hm
      · subst hm; simpa using le_of_not_lt h
      · have h2 := ih { st with offset := batch.firstOffset + rec.offsetDelta + 1 } m hm
        simp only at h2
        omega

theorem parseRecordsLoop_empty (batch : RecordBatch) (st : PCState) (recs : List Record)
    (h : (parseRecordsLoop batch st recs).2 = []) :
    (parseRecordsLoop batch st recs).1 = st := by
  induction recs generalizing st with
  | nil => simp [parseRecordsLoop_nil]
  | cons rec rest ih =>
    rw [parseRecordsLoop_cons] at h ⊢
    split at h
    · rw [if_pos (by assumption)]
      exact ih st h
    · simp at h

theorem parseRecordsLoop_last (batch : RecordBatch) (st : PCState) (recs : List Record)
    (m : ConsumerMessage)
    (h : (parseRecordsLoop batch st recs).2.getLast? = some m) :
    (parseRecordsLoop batch st recs).1.offset = m.offset + 1 := by
  induction recs generalizing st with
  | nil => simp [parseRecordsLoop_nil] at h
  | cons rec rest ih =>
    rw [parseRecordsLoop_cons] at h ⊢
    split at h
    · rw [if_pos (by assumption)]
      exact ih st h
    · rename_i hge
      rw [if_neg hge]
      set st' : PCState := { st with offset := batch.firstOffset + rec.offsetDelta + 1 } with hst'
      rcases hrest : (parseRecordsLoop batch st' rest).2 with _ | ⟨m0, ms⟩
      · have h1 := parseRecordsLoop_empty batch st' rest hrest
        rw [hrest] at h
        simp only [List.getLast?_singleton, Option.some.injEq] at h
        subst h
        simp [h1, hst']
      · rw [hrest] at h
        rw [List.getLast?_cons_cons] at h
        have := ih st'
        rw [hrest] at this
        exact this h

theorem parseRecordsLoop_chain (batch : RecordBatch) (st : PCState) (recs : List Record) :
    List.Chain' (· < ·) ((parseRecordsLoop batch st recs).2.map ConsumerMessage.offset) := by
  induction recs generalizing st with
  | nil => simp [parseRecordsLoop_nil]
  | cons rec rest ih =>
    rw [parseRecordsLoop_cons]
    split
    · exact ih st
    · rename_i hge
      set st' : PCState := { st with offset := batch.firstOffset + rec.offsetDelta + 1 } with hst'
      simp only [List.map_cons]
      refine List.chain'_cons'.mpr ⟨?_, ih st'⟩
      intro y hy
      rcases hrest : (parseRecordsLoop batch st' rest).2 with _ | ⟨m0, ms⟩
      · rw [hrest] at hy; simp at hy
      · rw [hrest] at hy
        simp only [List.map_cons, List.head?_cons, Option.mem_def, Option.some.injEq] at hy
        subst hy
        have := parseRecordsLoop_msgs_ge batch st' rest m0 (by rw [hrest]; exact List.mem_cons_self m0 ms)
        simp only [hst'] at this
        omega

theorem parseRecordsLoop_sorted_msgs (batch : RecordBatch) (st : PCState) (recs : List Record)
    (h : List.Chain' (· < ·) (recs.map (fun r => batch.firstOffset + r.offsetDelta))) :
    (parseRecordsLoop batch st recs).2.map ConsumerMessage.offset =
      (recs.map (fun r => batch.firstOffset + r.offsetDelta)).filter
        (fun o => st.offset ≤ o) := by
  induction recs generalizing st with
  | nil => simp [parseRecordsLoop_nil]
  | cons rec rest ih =>
    have hpair := (List.chain'_iff_pairwise.mp h)
    have hrec : ∀ x ∈ rest.map (fun r => batch.firstOffset + r.offsetDelta),
        batch.firstOffset + rec.offsetDelta < x := by
      intro x hx
      exact (List.pairwise_cons.mp (by simpa using hpair)).1 x hx
    have htail : List.Chain' (· < ·) (rest.map (fun r => batch.firstOffset + r.offsetDelta)) :=
      (List.chain'_cons'.mp (by simpa using h)).2
    rw [parseRecordsLoop_cons]
    split
    · rename_i hlt
      rw [ih st htail]
      simp only [List.map_cons, List.filter_cons]
      rw [if_neg (by simpa using not_le.mpr hlt)]
    · rename_i hge
      set st' : PCState := { st with offset := batch.firstOffset + rec.offsetDelta + 1 } with hst'
      simp only [List.map_cons, List.filter_cons]
      rw [if_pos (by simpa using le_of_not_lt hge)]
      rw [ih st' htail]
      refine congrArg _ (List.filter_congr ?_)
      intro x hx
      have hx2 := hrec x hx
      simp only [hst', decide_eq_decide]
      omega

theorem parseRecords_def (st : PCState) (batch : RecordBatch) :
    parseRecords st batch =
      if (parseRecordsLoop batch st batch.records).2.isEmpty then
        ({ (parseRecordsLoop batch st batch.records).1 with
            offset := (parseRecordsLoop batch st batch.records).1.offset + 1 },
          (parseRecordsLoop batch st batch.records).2)
      else parseRecordsLoop batch st batch.records := rfl

theorem parseRecords_msgs_ge (st : PCState) (batch : RecordBatch) :
    ∀ m ∈ (parseRecords st batch).2, st.offset ≤ m.offset := by
  rw [parseRecords_def]
  split
  · simp_all
  · exact parseRecordsLoop_msgs_ge batch st batch.records

theorem parseRecords_last (st : PCState) (batch : RecordBatch) (m : ConsumerMessage)
    (h : (parseRecords st batch).2.getLast? = some m) :
    (parseRecords st batch).1.offset = m.offset + 1 := by
  rw [parseRecords_def] at h ⊢
  split at h
  · rename_i hempty
    rw [List.isEmpty_iff.mp hempty] at h
    simp at h
  · rename_i hne
    rw [if_neg hne]
    exact parseRecordsLoop_last batch st batch.records m h

theorem parseRecords_empty (st : PCState) (batch : RecordBatch)
    (h : (parseRecords st batch).2 = []) :
    (parseRecords st batch).1 = { st with offset := st.offset + 1 } := by
  rw [parseRecords_def] at h ⊢
  split at h
  · rename_i hempty
    rw [if_pos hempty]
    have h1 := parseRecordsLoop_empty batch st batch.records (List.isEmpty_iff.mp hempty)
    rw [h1]
  · rename_i hne
    exact absurd (List.isEmpty_iff.mpr h) hne

theorem parseRecords_mono (st : PCState) (batch : RecordBatch) :
    st.offset ≤ (parseRecords st batch).1.offset := by
  rw [parseRecords_def]
  have := parseRecordsLoop_mono batch st batch.records
  split
  · show st.offset ≤ (parseRecordsLoop batch st batch.records).1.offset + 1
    omega
  · exact this

theorem parseRecords_state (st : PCState) (batch : RecordBatch) :
    (parseRecords st batch).1 =
      { st with offset := (parseRecords st batch).1.offset } := by
  rw [parseRecords_def]
  have := parseRecordsLoop_state batch st batch.records
  split
  · rw [this]
  · rw [this]

theorem parseRecords_chain (st : PCState) (batch : RecordBatch) :
    List.Chain' (· < ·) ((parseRecords st batch).2.map ConsumerMessage.offset) := by
  rw [parseRecords_def]
  have := parseRecordsLoop_chain batch st batch.records
  split <;> simpa

theorem parseRecords_offset_sorted (st : PCState) (batch : RecordBatch)
    (h : List.Chain' (· < ·) (batch.records.map (fun r => batch.firstOffset + r.offsetDelta))) :
    (parseRecords st batch).1.offset =
      (match (qualifiedOffsets batch st.offset).getLast? with
        | some o => o + 1
        | none => st.offset + 1) := by
  have hm : qualifiedOffsets batch st.offset =
      (parseRecordsLoop batch st batch.records).2.map ConsumerMessage.offset := by
    unfold qualifiedOffsets
    rw [parseRecordsLoop_sorted_msgs batch st batch.records h]
  rw [hm, List.getLast?_map]
  rcases hlast : (parseRecordsLoop batch st batch.records).2.getLast? with _ | m
  · have hempty := List.getLast?_eq_none_iff.mp hlast
    have h1 := parseRecords_empty st batch (by
      rw [parseRecords_def, if_pos (List.isEmpty_iff.mpr hempty)]
      exact hempty)
    rw [h1]
    rfl
  · have hne : ¬ (parseRecordsLoop batch st batch.records).2.isEmpty := by
      intro hcon
      rw [List.isEmpty_iff.mp hcon] at hlast
      simp at hlast
    have h1 := parseRecords_last st batch m (by
      rw [parseRecords_def, if_neg hne]
      exact hlast)
    rw [h1]
    rfl

theorem parseMessagesInner_nil (blk : MessageBlock) (st : PCState) :
    parseMessagesInner blk st [] = (st, []) := rfl

theorem parseMessagesInner_cons (blk : MessageBlock) (st : PCState) (im : InnerMessage)
    (rest : List InnerMessage) :
    parseMessagesInner blk st (im :: rest) =
      if innerOffset blk im < st.offset then
        parseMessagesInner blk st rest
      else
        ((parseMessagesInner blk { st with offset := innerOffset blk im + 1 } rest).1,
          { headers := []
            timestamp := if 1 ≤ im.msg.version ∧ im.msg.logAppendTime then blk.msg.timestamp
              else im.msg.timestamp
            blockTimestamp := blk.msg.timestamp
            key := im.msg.key
            value := im.msg.value
            topic := st.topic
            partition := st.partition
            offset := innerOffset blk im } ::
          (parseMessagesInner blk { st with offset := innerOffset blk im + 1 } rest).2) := by
  rfl

theorem parseMessagesInner_state (blk : MessageBlock) (st : PCState)
    (ims : List InnerMessage) :
    (parseMessagesInner blk st ims).1 =
      { st with offset := (parseMessagesInner blk st ims).1.offset } := by
  induction ims generalizing st with
  | nil => simp [parseMessagesInner_nil]
  | cons im rest ih =>
    rw [parseMessagesInner_cons]
    split
    · exact ih st
    · simpa using ih { st with offset := innerOffset blk im + 1 }

theorem parseMessagesInner_mono (blk : MessageBlock) (st : PCState)
    (ims : List InnerMessage) :
    st.offset ≤ (parseMessagesInner blk st ims).1.offset := by
  induction ims generalizing st with
  | nil => simp [parseMessagesInner_nil]
  | cons im rest ih =>
    rw [parseMessagesInner_cons]
    split
    · exact ih st
    · rename_i h
      have h2 := ih { st with offset := innerOffset blk im + 1 }
      simp only at h2 ⊢
      omega

theorem parseMessagesInner_msgs_ge (blk : MessageBlock) (st : PCState)
    (ims : List InnerMessage) :
    ∀ m ∈ (parseMessagesInner blk st ims).2, st.offset ≤ m.offset := by
  induction ims generalizing st with
  | nil => simp [parseMessagesInner_nil]
  | cons im rest ih =>
    rw [parseMessagesInner_cons]
    split
    · exact ih st
    · rename_i h
      intro m hm
      rcases List.mem_cons.mp hm with hm | hm
      · subst hm; simpa using le_of_not_lt h
      · have h2 := ih { st with offset := innerOffset blk im + 1 } m hm
        simp only at h2
        omega

theorem parseMessagesInner_empty (blk : MessageBlock) (st : PCState)
    (ims : List InnerMessage)
    (h : (parseMessagesInner blk st ims).2 = []) :
    (parseMessagesInner blk st ims).1 = st := by
  induction ims generalizing st with
  | nil => simp [parseMessagesInner_nil]
  | cons im rest ih =>
    rw [parseMessagesInner_cons] at h ⊢
    split at h
    · rw [if_pos (by assumption)]
      exact ih st h
    · simp at h

theorem parseMessagesInner_last (blk : MessageBlock) (st : PCState)
    (ims : List InnerMessage) (m : ConsumerMessage)
    (h : (parseMessagesInner blk st ims).2.getLast? = some m) :
    (parseMessagesInner blk st ims).1.offset = m.offset + 1 := by
  induction ims generalizing st with
  | nil => simp [parseMessagesInner_nil] at h
  | cons im rest ih =>
    rw [parseMessagesInner_cons] at h ⊢
    split at h
    · rw [if_pos (by assumption)]
      exact ih st h
    · rename_i hge
      rw [if_neg hge]
      set st' : PCState := { st with offset := innerOffset blk im + 1 } with hst'
      rcases hrest : (parseMessagesInner blk st' rest).2 with _ | ⟨m0, ms⟩
      · have h1 := parseMessagesInner_empty blk st' rest hrest
        rw [hrest] at h
        simp only [List.getLast?_singleton, Option.some.injEq] at h
        subst h
        simp [h1, hst']
      · rw [hrest] at h
        rw [List.getLast?_cons_cons] at h
        have h2 := ih st'
        rw [hrest] at h2
        exact h2 h

theorem parseMessagesInner_chain (blk : MessageBlock) (st : PCState)
    (ims : List InnerMessage) :
    List.Chain' (· < ·) ((parseMessagesInner blk st ims).2.map ConsumerMessage.offset) := by
  induction ims generalizing st with
  | nil => simp [parseMessagesInner_nil]
  | cons im rest ih =>
    rw [parseMessagesInner_cons]
    split
    · exact ih st
    · rename_i hge
      set st' : PCState := { st with offset := innerOffset blk im + 1 } with hst'
      simp only [List.map_cons]
      refine List.chain'_cons'.mpr ⟨?_, ih st'⟩
      intro y hy
      rcases hrest : (parseMessagesInner blk st' rest).2 with _ | ⟨m0, ms⟩
      · rw [hrest] at hy; simp at hy
      · rw [hrest] at hy
        simp only [List.map_cons, List.head?_cons, Option.mem_def, Option.some.injEq] at hy
        subst hy
        have h2 := parseMessagesInner_msgs_ge blk st' rest m0
          (by rw [hrest]; exact List.mem_cons_self m0 ms)
        simp only [hst'] at h2
        omega

theorem parseMessagesOuter_nil (st : PCState) : parseMessagesOuter st [] = (st, []) := rfl

theorem parseMessagesOuter_cons (st : PCState) (blk : MessageBlock)
    (rest : List MessageBlock) :
    parseMessagesOuter st (blk :: rest) =
      ((parseMessagesOuter (parseMessagesInner blk st blk.messages).1 rest).1,
        (parseMessagesInner blk st blk.messages).2 ++
          (parseMessagesOuter (parseMessagesInner blk st blk.messages).1 rest).2) := rfl

theorem parseMessagesOuter_cons_fst (st : PCState) (blk : MessageBlock)
    (rest : List MessageBlock) :
    (parseMessagesOuter st (blk :: rest)).1 =
      (parseMessagesOuter (parseMessagesInner blk st blk.messages).1 rest).1 := rfl

theorem parseMessagesOuter_cons_snd (st : PCState) (blk : MessageBlock)
    (rest : List MessageBlock) :
    (parseMessagesOuter st (blk :: rest)).2 =
      (parseMessagesInner blk st blk.messages).2 ++
        (parseMessagesOuter (parseMessagesInner blk st blk.messages).1 rest).2 := rfl

theorem parseMessagesOuter_state (st : PCState) (blks : List MessageBlock) :
    (parseMessagesOuter st blks).1 =
      { st with offset := (parseMessagesOuter st blks).1.offset } := by
  induction blks generalizing st with
  | nil => simp [parseMessagesOuter_nil]
  | cons blk rest ih =>
    rw [parseMessagesOuter_cons_fst]
    have h1 := parseMessagesInner_state blk st blk.messages
    have h2 := ih (parseMessagesInner blk st blk.messages).1
    rw [h2, h1]

theorem parseMessagesOuter_mono (st : PCState) (blks : List MessageBlock) :
    st.offset ≤ (parseMessagesOuter st blks).1.offset := by
  induction blks generalizing st with
  | nil => simp [parseMessagesOuter_nil]
  | cons blk rest ih =>
    rw [parseMessagesOuter_cons_fst]
    have h1 := parseMessagesInner_mono blk st blk.messages
    have h2 := ih (parseMessagesInner blk st blk.messages).1
    exact le_trans h1 h2

theorem parseMessagesOuter_msgs_ge (st : PCState) (blks : List MessageBlock) :
    ∀ m ∈ (parseMessagesOuter st blks).2, st.offset ≤ m.offset := by
  induction blks generalizing st with
  | nil => simp [parseMessagesOuter_nil]
  | cons blk rest ih =>
    rw [parseMessagesOuter_cons_snd]
    intro m hm
    rcases List.mem_append.mp hm with hm | hm
    · exact parseMessagesInner_msgs_ge blk st blk.messages m hm
    · exact le_trans (parseMessagesInner_mono blk st blk.messages)
        (ih (parseMessagesInner blk st blk.messages).1 m hm)

theorem parseMessagesOuter_empty (st : PCState) (blks : List MessageBlock)
    (h : (parseMessagesOuter st blks).2 = []) :
    (parseMessagesOuter st blks).1 = st := by
  induction blks generalizing st with
  | nil => simp [parseMessagesOuter_nil]
  | cons blk rest ih =>
    rw [parseMessagesOuter_cons_snd] at h
    have h1 : (parseMessagesInner blk st blk.messages).2 = [] :=
      (List.append_eq_nil.mp h).1
    have h2 : (parseMessagesOuter (parseMessagesInner blk st blk.messages).1 rest).2 = [] :=
      (List.append_eq_nil.mp h).2
    have h3 := parseMessagesInner_empty blk st blk.messages h1
    rw [h3] at h2
    have h4 := ih st h2
    rw [parseMessagesOuter_cons_fst, h3]
    exact h4

theorem parseMessagesOuter_last (st : PCState) (blks : List MessageBlock)
    (m : ConsumerMessage)
    (h : (parseMessagesOuter st blks).2.getLast? = some m) :
    (parseMessagesOuter st blks).1.offset = m.offset + 1 := by
  induction blks generalizing st with
  | nil => simp [parseMessagesOuter_nil] at h
  | cons blk rest ih =>
    rw [parseMessagesOuter_cons_snd] at h
    rw [parseMessagesOuter_cons_fst]
    rcases hrest : (parseMessagesOuter (parseMessagesInner blk st blk.messages).1 rest).2
      with _ | ⟨m0, ms⟩
    · rw [hrest, List.append_nil] at h
      have h4 := parseMessagesOuter_empty (parseMessagesInner blk st blk.messages).1 rest hrest
      rw [h4]
      exact parseMessagesInner_last blk st blk.messages m h
    · rw [List.getLast?_append_of_ne_nil _ (by rw [hrest]; simp)] at h
      exact ih (parseMessagesInner blk st blk.messages).1 h

theorem parseMessagesOuter_chain (st : PCState) (blks : List MessageBlock) :
    List.Chain' (· < ·) ((parseMessagesOuter st blks).2.map ConsumerMessage.offset) := by
  induction blks generalizing st with
  | nil => simp [parseMessagesOuter_nil]
  | cons blk rest ih =>
    rw [parseMessagesOuter_cons_snd]
    simp only [List.map_append]
    rw [List.chain'_append]
    refine ⟨parseMessagesInner_chain blk st blk.messages,
      ih (parseMessagesInner blk st blk.messages).1, ?_⟩
    intro x hx y hy
    rcases hin : (parseMessagesInner blk st blk.messages).2 with _ | ⟨mi, mis⟩
    · rw [hin] at hx; simp at hx
    · rcases hout : (parseMessagesOuter (parseMessagesInner blk st blk.messages).1 rest).2
        with _ | ⟨mo, mos⟩
      · rw [hout] at hy; simp at hy
      · rw [hin] at hx
        rw [hout] at hy
        rw [List.getLast?_map] at hx
        simp only [List.map_cons, List.head?_cons, Option.mem_def, Option.some.injEq] at hy
        subst hy
        rcases hlast : (mi :: mis).getLast? with _ | ml
        · simp at hlast
        · rw [hlast] at hx
          simp only [Option.map_some', Option.mem_def, Option.some.injEq] at hx
          subst hx
          have h1 : (parseMessagesInner blk st blk.messages).1.offset = ml.offset + 1 :=
            parseMessagesInner_last blk st blk.messages ml (by rw [hin]; exact hlast)
          have h2 : (parseMessagesInner blk st blk.messages).1.offset ≤ mo.offset := by
            refine parseMessagesOuter_msgs_ge _ rest mo ?_
            rw [hout]; exact List.mem_cons_self mo mos
          omega

theorem parseMessages_def (st : PCState) (msgSet : MessageSet) :
    parseMessages st msgSet =
      if (parseMessagesOuter st msgSet.messages).2.isEmpty then
        ({ (parseMessagesOuter st msgSet.messages).1 with
            offset := (parseMessagesOuter st msgSet.messages).1.offset + 1 },
          (parseMessagesOuter st msgSet.messages).2)
      else parseMessagesOuter st msgSet.messages := rfl

theorem parseMessages_msgs_ge (st : PCState) (msgSet : MessageSet) :
    ∀ m ∈ (parseMessages st msgSet).2, st.offset ≤ m.offset := by
  rw [parseMessages_def]
  split
  · simp_all
  · exact parseMessagesOuter_msgs_ge st msgSet.messages

theorem parseMessages_last (st : PCState) (msgSet : MessageSet) (m : ConsumerMessage)
    (h : (parseMessages st msgSet).2.getLast? = some m) :
    (parseMessages st msgSet).1.offset = m.offset + 1 := by
  rw [parseMessages_def] at h ⊢
  split at h
  · rename_i hempty
    rw [List.isEmpty_iff.mp hempty] at h
    simp at h
  · rename_i hne
    rw [if_neg hne]
    exact parseMessagesOuter_last st msgSet.messages m h

theorem parseMessages_empty (st : PCState) (msgSet : MessageSet)
    (h : (parseMessages st msgSet).2 = []) :
    (parseMessages st msgSet).1 = { st with offset := st.offset + 1 } := by
  rw [parseMessages_def] at h ⊢
  split at h
  · rename_i hempty
    rw [if_pos hempty]
    have h1 := parseMessagesOuter_empty st msgSet.messages (List.isEmpty_iff.mp hempty)
    rw [h1]
  · rename_i hne
    exact absurd (List.isEmpty_iff.mpr h) hne

theorem parseMessages_mono (st : PCState) (msgSet : MessageSet) :
    st.offset ≤ (parseMessages st msgSet).1.offset := by
  rw [parseMessages_def]
  have := parseMessagesOuter_mono st msgSet.messages
  split
  · show st.offset ≤ (parseMessagesOuter st msgSet.messages).1.offset + 1
    omega
  · exact this

theorem parseMessages_state (st : PCState) (msgSet : MessageSet) :
    (parseMessages st msgSet).1 =
      { st with offset := (parseMessages st msgSet).1.offset } := by
  rw [parseMessages_def]
  have := parseMessagesOuter_state st msgSet.messages
  split
  · rw [this]
  · rw [this]

theorem parseMessages_chain (st : PCState) (msgSet : MessageSet) :
    List.Chain' (· < ·) ((parseMessages st msgSet).2.map ConsumerMessage.offset) := by
  rw [parseMessages_def]
  have := parseMessagesOuter_chain st msgSet.messages
  split <;> simpa

theorem applyPreferred_offset (st : PCState) (block : FetchResponseBlock) :
    (applyPreferred st block).offset = st.offset := by
  unfold applyPreferred; split <;> rfl

theorem applyPreferred_fetchSize (st : PCState) (block : FetchResponseBlock) :
    (applyPreferred st block).fetchSize = st.fetchSize := by
  unfold applyPreferred; split <;> rfl

theorem parseResponse_eq_block (conf : Config) (st : PCState) (resp : FetchResponse)
    (block : FetchResponseBlock)
    (hthrottle : resp.throttleTimeMs = 0 ∨ resp.blocks ≠ [])
    (hblock : resp.getBlock st.topic st.partition = some block) :
    parseResponse conf st resp = parseResponseBlock conf st block := by
  unfold parseResponse
  rw [if_neg, hblock]
  rcases hthrottle with h | h
  · simp [h]
  · simp [h]

theorem processRecordsEntry_child_mono (conf : Config) (ls : LoopState) (entry : Records) :
    ls.child.offset ≤ (processRecordsEntry conf ls entry).child.offset := by
  cases entry with
  | legacyRecords msgSet =>
    simpa [processRecordsEntry] using parseMessages_mono ls.child msgSet
  | defaultRecords batch =>
    have h := parseRecords_mono ls.child batch
    simp only [processRecordsEntry]
    split
    · exact h
    · split
      · exact h
      · exact h

theorem foldl_process_child_mono (conf : Config) (entries : List Records) (ls : LoopState) :
    ls.child.offset ≤ ((entries.foldl (processRecordsEntry conf) ls).child).offset := by
  induction entries generalizing ls with
  | nil => simp
  | cons e rest ih =>
    rw [List.foldl_cons]
    exact le_trans (processRecordsEntry_child_mono conf ls e) (ih _)

/-- C1.  For every batch parsed for a subscription, every record below
the current offset cursor is discarded and never delivered; the
delivered offsets are strictly increasing, and after the parse the
cursor sits one past the last delivered record — on both the
record-batch path (`parseRecords`) and the legacy path
(`parseMessages`).  In particular (scenario S1) a subscription at offset
42 given a batch with records at offsets 40, 41, 42, 43 delivers exactly
offsets 42 and 43 and ends with offset 44. -/
theorem offset_filter_and_advance :
    (∀ (st : PCState) (batch : RecordBatch),
      (∀ m ∈ (parseRecords st batch).2, st.offset ≤ m.offset) ∧
      List.Chain' (· < ·) ((parseRecords st batch).2.map ConsumerMessage.offset) ∧
      (∀ m, (parseRecords st batch).2.getLast? = some m →
        (parseRecords st batch).1.offset = m.offset + 1)) ∧
    (∀ (st : PCState) (msgSet : MessageSet),
      (∀ m ∈ (parseMessages st msgSet).2, st.offset ≤ m.offset) ∧
      List.Chain' (· < ·) ((parseMessages st msgSet).2.map ConsumerMessage.offset) ∧
      (∀ m, (parseMessages st msgSet).2.getLast? = some m →
        (parseMessages st msgSet).1.offset = m.offset + 1)) ∧
    (parseRecords s1State s1Batch).2.map ConsumerMessage.offset = [42, 43] ∧
    (parseRecords s1State s1Batch).1.offset = 44 := by
  refine ⟨fun st batch => ⟨parseRecords_msgs_ge st batch, parseRecords_chain st batch,
      fun m h => parseRecords_last st batch m h⟩,
    fun st msgSet => ⟨parseMessages_msgs_ge st msgSet, parseMessages_chain st msgSet,
      fun m h => parseMessages_last st msgSet m h⟩, by decide, by decide⟩

/-- Witness for C1: the general statements applied at the S1 scenario. -/
theorem offset_filter_and_advance_witness :
    s1State.offset ≤ s1Msg42.offset ∧
    (parseRecords s1State s1Batch).1.offset = s1Msg43.offset + 1 :=
  ⟨(offset_filter_and_advance.1 s1State s1Batch).1 s1Msg42 (by decide),
    (offset_filter_and_advance.1 s1State s1Batch).2.2 s1Msg43 (by decide)⟩

/-- C5.  `handleResponses` surfaces `ErrOffsetOutOfRange` to the user,
closes the subscription's trigger and drops it without redispatch, while
each of the six retriable broker errors removes the subscription from
the broker's set and redispatches it via its trigger with no
user-visible error. -/
theorem handleResponses_classification :
    handleResponseResult KError.offsetOutOfRange =
      ⟨some KError.offsetOutOfRange, true, false, true⟩ ∧
    handleResponseResult KError.unknownTopicOrPartition = ⟨none, false, true, true⟩ ∧
    handleResponseResult KError.notLeaderForPartition = ⟨none, false, true, true⟩ ∧
    handleResponseResult KError.leaderNotAvailable = ⟨none, false, true, true⟩ ∧
    handleResponseResult KError.replicaNotAvailable = ⟨none, false, true, true⟩ ∧
    handleResponseResult KError.fencedLeaderEpoch = ⟨none, false, true, true⟩ ∧
    handleResponseResult KError.unknownLeaderEpoch = ⟨none, false, true, true⟩ := by
  decide

/-- C8.  A response that is not a throttled-empty response and has no
block for the subscription's (topic, partition) makes `parseResponse`
return `ErrIncompleteResponse` with no records, no side errors, and the
subscription state untouched. -/
theorem parseResponse_missing_block (conf : Config) (st : PCState) (resp : FetchResponse)
    (hthrottle : resp.throttleTimeMs = 0 ∨ resp.blocks ≠ [])
    (hblock : resp.getBlock st.topic st.partition = none) :
    parseResponse conf st resp = ⟨st, [], some KError.incompleteResponse, []⟩ := by
  unfold parseResponse
  rw [if_neg, hblock]
  rcases hthrottle with h | h
  · simp [h]
  · simp [h]

/-- Witness for C8: the theorem applied to a concrete response with no
block for the subscription. -/
theorem parseResponse_missing_block_witness :
    parseResponse baseConf s1State c8Resp =
      ⟨s1State, [], some KError.incompleteResponse, []⟩ :=
  parseResponse_missing_block baseConf s1State c8Resp (Or.inl (by decide)) (by decide)

/-- C6 counterexample.  A block whose only batch is dropped entirely as
an aborted transaction delivers no records, yet the offset advances by 2
(past the two-record batch), not by exactly 1: the claim "if no records
survive filtering from a records block the parse advances the offset by
exactly 1" fails on the aborted-batch case. -/
theorem empty_after_filter_not_one :
    (parseResponse rcConf st100 c6Resp).msgs = [] ∧
    st100.offset = 100 ∧
    (parseResponse rcConf st100 c6Resp).state.offset = 102 ∧
    ¬ (parseResponse rcConf st100 c6Resp).state.offset = st100.offset + 1 := by
  decide

/-- C6 as amended.  When no record survives the offset filter inside
`parseRecords` or `parseMessages` (the parse of that container delivers
nothing), the subscription's offset advances by exactly 1; a batch
whose records survive the filter but are then discarded as control or
aborted data instead advances the offset past those records. -/
theorem parse_empty_advances_one :
    (∀ (st : PCState) (batch : RecordBatch), (parseRecords st batch).2 = [] →
      (parseRecords st batch).1.offset = st.offset + 1) ∧
    (∀ (st : PCState) (msgSet : MessageSet), (parseMessages st msgSet).2 = [] →
      (parseMessages st msgSet).1.offset = st.offset + 1) := by
  constructor
  · intro st batch h
    rw [parseRecords_empty st batch h]
  · intro st msgSet h
    rw [parseMessages_empty st msgSet h]

/-- Witness for the amended C6: a batch whose single record is below the
cursor delivers nothing and advances the offset by exactly 1. -/
theorem parse_empty_advances_one_witness :
    (parseRecords st100 c6LowBatch).1.offset = st100.offset + 1 :=
  parse_empty_advances_one.1 st100 c6LowBatch (by decide)

/-- C4 counterexample.  The zero-records path of `parseResponse` sets
the offset to the block's `recordsNextOffset` whenever that value is at
most the high water mark, with no lower-bound guard: a block whose
`recordsNextOffset` (10) lies below the subscription's offset (100)
DECREASES the offset, refuting "the offset field never decreases". -/
theorem offset_can_decrease :
    st100.offset = 100 ∧
    (parseResponse baseConf st100 c4Resp).state.offset = 10 ∧
    (parseResponse baseConf st100 c4Resp).state.offset < st100.offset := by
  decide

/-- C4 as amended.  Provided the block found for the subscription (if
any) carries no `recordsNextOffset` below the current offset, a
`parseResponse` call never decreases the subscription's offset — in
particular the per-record advance paths of `parseRecords` and
`parseMessages` and the partial-trailing path never decrease it, so the
offset is non-decreasing across every sequence of such calls. -/
theorem handleTruncatedTrailing_offset (conf : Config) (st : PCState) :
    st.offset ≤ (handleTruncatedTrailing conf st).state.offset := by
  unfold handleTruncatedTrailing
  split
  · show st.offset ≤ st.offset + 1
    omega
  · exact le_refl _

theorem handleZeroRecords_trunc (conf : Config) (st : PCState) (block : FetchResponseBlock)
    (htr : block.truncatedTrailingRecord = true) :
    handleZeroRecords conf st block = handleTruncatedTrailing conf st := by
  simp [handleZeroRecords, htr]

theorem handleZeroRecords_noNext (conf : Config) (st : PCState) (block : FetchResponseBlock)
    (htr : block.truncatedTrailingRecord = false)
    (hn : block.recordsNextOffset = none) :
    handleZeroRecords conf st block = ⟨st, [], none, []⟩ := by
  simp [handleZeroRecords, htr, hn]

theorem handleZeroRecords_next (conf : Config) (st : PCState) (block : FetchResponseBlock)
    (htr : block.truncatedTrailingRecord = false) (n : Int)
    (hn : block.recordsNextOffset = some n) :
    handleZeroRecords conf st block =
      (if n ≤ block.highWaterMarkOffset then ⟨{ st with offset := n }, [], none, []⟩
       else ⟨st, [], none, []⟩) := by
  simp [handleZeroRecords, htr, hn]

theorem parseResponseBlock_err (conf : Config) (st : PCState) (block : FetchResponseBlock)
    (h : block.err ≠ KError.noError) :
    parseResponseBlock conf st block = ⟨st, [], some block.err, []⟩ := by
  simp [parseResponseBlock, h]

theorem parseResponseBlock_zero (conf : Config) (st : PCState) (block : FetchResponseBlock)
    (he : block.err = KError.noError) (hz : block.numRecords = 0) :
    parseResponseBlock conf st block =
      handleZeroRecords conf (applyPreferred st block) block := by
  simp [parseResponseBlock, he, hz]

theorem parseResponseBlock_records (conf : Config) (st : PCState)
    (block : FetchResponseBlock)
    (he : block.err = KError.noError) (hz : block.numRecords ≠ 0) :
    parseResponseBlock conf st block =
      ⟨(block.recordsSet.foldl (processRecordsEntry conf)
          ⟨[], block.abortedTransactions,
            resetForRecords conf (applyPreferred st block) block, []⟩).child,
        (block.recordsSet.foldl (processRecordsEntry conf)
          ⟨[], block.abortedTransactions,
            resetForRecords conf (applyPreferred st block) block, []⟩).msgs,
        none, []⟩ := by
  simp [parseResponseBlock, he, hz, resetForRecords]

/-- C4 as amended.  Provided the block found for the subscription (if
any) carries no `recordsNextOffset` below the current offset, a
`parseResponse` call never decreases the subscription's offset — in
particular the per-record advance paths of `parseRecords` and
`parseMessages` and the partial-trailing path never decrease it, so the
offset is non-decreasing across every sequence of such calls. -/
theorem parseResponse_offset_monotone (conf : Config) (st : PCState) (resp : FetchResponse)
    (hnext : ∀ block, resp.getBlock st.topic st.partition = some block →
      ∀ n, block.recordsNextOffset = some n → st.offset ≤ n) :
    st.offset ≤ (parseResponse conf st resp).state.offset := by
  unfold parseResponse
  split
  · exact le_refl _
  · rcases hb : resp.getBlock st.topic st.partition with _ | block
    · exact le_refl _
    · show st.offset ≤ (parseResponseBlock conf st block).state.offset
      by_cases he : block.err = KError.noError
      · by_cases hz : block.numRecords = 0
        · rw [parseResponseBlock_zero conf st block he hz]
          rcases htr : block.truncatedTrailingRecord with _ | _
          · rcases hn : block.recordsNextOffset with _ | n
            · rw [handleZeroRecords_noNext conf _ block htr hn]
              show st.offset ≤ (applyPreferred st block).offset
              rw [applyPreferred_offset]
            · rw [handleZeroRecords_next conf _ block htr n hn]
              split
              · show st.offset ≤ n
                exact hnext block hb n hn
              · show st.offset ≤ (applyPreferred st block).offset
                rw [applyPreferred_offset]
          · rw [handleZeroRecords_trunc conf _ block htr]
            calc st.offset = (applyPreferred st block).offset :=
                  (applyPreferred_offset st block).symm
              _ ≤ _ := handleTruncatedTrailing_offset conf (applyPreferred st block)
        · rw [parseResponseBlock_records conf st block he hz]
          have h2 := foldl_process_child_mono conf block.recordsSet
            ⟨[], block.abortedTransactions,
              resetForRecords conf (applyPreferred st block) block, []⟩
          calc st.offset = (applyPreferred st block).offset :=
                (applyPreferred_offset st block).symm
            _ = (resetForRecords conf (applyPreferred st block) block).offset := rfl
            _ ≤ _ := h2
      · rw [parseResponseBlock_err conf st block he]

/-- Witness for the amended C4: applied to the aborted-batch response,
whose block has no `recordsNextOffset`. -/
theorem parseResponse_offset_monotone_witness :
    st100.offset ≤ (parseResponse rcConf st100 c6Resp).state.offset :=
  parseResponse_offset_monotone rcConf st100 c6Resp (by
    intro block hb n hn
    have hb2 : c6Resp.getBlock st100.topic st100.partition = some c6Block := by decide
    rw [hb2] at hb
    injection hb with hb
    subst hb
    simp [c6Block] at hn)

theorem handleTruncatedTrailing_maxed (conf : Config) (st : PCState)
    (h : conf.fetchMax > 0 ∧ st.fetchSize = conf.fetchMax) :
    handleTruncatedTrailing conf st =
      ⟨{ st with offset := st.offset + 1 }, [], none, [KError.messageTooLarge]⟩ := by
  unfold handleTruncatedTrailing
  rw [if_pos h]

theorem handleTruncatedTrailing_grow (conf : Config) (st : PCState)
    (h : ¬(conf.fetchMax > 0 ∧ st.fetchSize = conf.fetchMax)) :
    handleTruncatedTrailing conf st =
      ⟨{ st with fetchSize :=
          (if conf.fetchMax > 0 ∧
              (if wrap32 (2 * st.fetchSize) < 0 then maxInt32
               else wrap32 (2 * st.fetchSize)) > conf.fetchMax
           then conf.fetchMax
           else (if wrap32 (2 * st.fetchSize) < 0 then maxInt32
                 else wrap32 (2 * st.fetchSize))) },
        [], none, []⟩ := by
  unfold handleTruncatedTrailing
  rw [if_neg h]

theorem wrap32_spec (x : Int) (h1 : 0 ≤ x) (h2 : x < 4294967296) :
    wrap32 x = if x < 2147483648 then x else x - 4294967296 := by
  unfold wrap32
  norm_num
  split_ifs <;> omega

theorem handleTruncatedTrailing_bounds (conf : Config) (st : PCState)
    (hd : 0 < conf.fetchDefault) (hdm : conf.fetchDefault ≤ conf.fetchMax)
    (hm : conf.fetchMax ≤ maxInt32)
    (h1 : conf.fetchDefault ≤ st.fetchSize) (h2 : st.fetchSize ≤ conf.fetchMax) :
    conf.fetchDefault ≤ (handleTruncatedTrailing conf st).state.fetchSize ∧
    (handleTruncatedTrailing conf st).state.fetchSize ≤ conf.fetchMax := by
  have hm' : conf.fetchMax ≤ 2147483647 := by
    have hval : maxInt32 = 2147483647 := by norm_num [maxInt32]
    rw [hval] at hm
    exact hm
  by_cases hc : conf.fetchMax > 0 ∧ st.fetchSize = conf.fetchMax
  · rw [handleTruncatedTrailing_maxed conf st hc]
    exact ⟨h1, h2⟩
  · rw [handleTruncatedTrailing_grow conf st hc]
    rcases not_and_or.mp hc with hc1 | hc1
    · exact absurd (by omega) hc1
    · have hw := wrap32_spec (2 * st.fetchSize) (by omega) (by omega)
      have hval : maxInt32 = 2147483647 := by norm_num [maxInt32]
      dsimp only
      rw [hw, hval]
      split_ifs <;> constructor <;> omega

/-- C3.  On a zero-record block ending in a partial trailing batch:
when a positive `Fetch.Max` is configured and the fetch size already
equals it, `parseResponse` emits `ErrMessageTooLarge`, advances the
offset by exactly 1 and leaves the fetch size unchanged; otherwise the
fetch size is doubled with int32 saturation and clamped, so that it
stays within `[Fetch.Default, Fetch.Max]`.  Scenario S2: from
fetchSize = default = 1024 with max 8192, one response yields 2048, four
yield 8192, and a fifth leaves 8192 while emitting `ErrMessageTooLarge`
and advancing the offset by 1. -/
theorem fetch_size_growth :
    (∀ (conf : Config) (st : PCState) (resp : FetchResponse) (block : FetchResponseBlock),
      (resp.throttleTimeMs = 0 ∨ resp.blocks ≠ []) →
      resp.getBlock st.topic st.partition = some block →
      block.err = KError.noError →
      block.numRecords = 0 →
      block.truncatedTrailingRecord = true →
      ((conf.fetchMax > 0 ∧ st.fetchSize = conf.fetchMax →
          (parseResponse conf st resp).sentErrors = [KError.messageTooLarge] ∧
          (parseResponse conf st resp).state.offset = st.offset + 1 ∧
          (parseResponse conf st resp).state.fetchSize = st.fetchSize) ∧
        (0 < conf.fetchDefault → conf.fetchDefault ≤ conf.fetchMax →
          conf.fetchMax ≤ maxInt32 →
          conf.fetchDefault ≤ st.fetchSize → st.fetchSize ≤ conf.fetchMax →
          conf.fetchDefault ≤ (parseResponse conf st resp).state.fetchSize ∧
          (parseResponse conf st resp).state.fetchSize ≤ conf.fetchMax))) ∧
    (c3Step s1State).fetchSize = 2048 ∧
    (c3Step (c3Step (c3Step (c3Step s1State)))).fetchSize = 8192 ∧
    (c3Step (c3Step (c3Step (c3Step (c3Step s1State))))).fetchSize = 8192 ∧
    (parseResponse baseConf (c3Step (c3Step (c3Step (c3Step s1State)))) c3Resp).sentErrors =
      [KError.messageTooLarge] ∧
    (c3Step (c3Step (c3Step (c3Step (c3Step s1State))))).offset =
      (c3Step (c3Step (c3Step (c3Step s1State)))).offset + 1 := by
  refine ⟨?_, by decide, by decide, by decide, by decide, by decide⟩
  intro conf st resp block hthrottle hblock he hz htr
  have heq : parseResponse conf st resp = handleTruncatedTrailing conf (applyPreferred st block) := by
    rw [parseResponse_eq_block conf st resp block hthrottle hblock,
      parseResponseBlock_zero conf st block he hz,
      handleZeroRecords_trunc conf _ block htr]
  constructor
  · intro hmax
    have hmax2 : conf.fetchMax > 0 ∧ (applyPreferred st block).fetchSize = conf.fetchMax := by
      rw [applyPreferred_fetchSize]; exact hmax
    rw [heq, handleTruncatedTrailing_maxed conf _ hmax2]
    refine ⟨rfl, ?_, ?_⟩
    · show (applyPreferred st block).offset + 1 = st.offset + 1
      rw [applyPreferred_offset]
    · show (applyPreferred st block).fetchSize = st.fetchSize
      rw [applyPreferred_fetchSize]
  · intro hd hdm hm h1 h2
    rw [heq]
    have := handleTruncatedTrailing_bounds conf (applyPreferred st block) hd hdm hm
      (by rw [applyPreferred_fetchSize]; exact h1)
      (by rw [applyPreferred_fetchSize]; exact h2)
    exact this

/-- Witness for C3: the general branches applied at the S2 scenario
state (fetch size already at the maximum, and at the default). -/
theorem fetch_size_growth_witness :
    ((parseResponse baseConf (c3Step (c3Step (c3Step (c3Step s1State)))) c3Resp).sentErrors =
        [KError.messageTooLarge] ∧
      (parseResponse baseConf (c3Step (c3Step (c3Step (c3Step s1State)))) c3Resp).state.offset =
        (c3Step (c3Step (c3Step (c3Step s1State)))).offset + 1 ∧
      (parseResponse baseConf (c3Step (c3Step (c3Step (c3Step s1State)))) c3Resp).state.fetchSize =
        (c3Step (c3Step (c3Step (c3Step s1State)))).fetchSize) ∧
    baseConf.fetchDefault ≤ (parseResponse baseConf s1State c3Resp).state.fetchSize ∧
    (parseResponse baseConf s1State c3Resp).state.fetchSize ≤ baseConf.fetchMax :=
  ⟨(fetch_size_growth.1 baseConf (c3Step (c3Step (c3Step (c3Step s1State)))) c3Resp c3Block
      (Or.inl (by decide)) (by decide) (by decide) (by decide) (by decide)).1 (by decide),
    (fetch_size_growth.1 baseConf s1State c3Resp c3Block
      (Or.inl (by decide)) (by decide) (by decide) (by decide) (by decide)).2
      (by decide) (by decide) (by decide) (by decide) (by decide)⟩

/-- C9.  With `Consumer.Fetch.Max ≤ 0` the partial-trailing path never
emits `ErrMessageTooLarge` and never clamps: every such response doubles
the fetch size with int32 wrap-around, replacing it by `math.MaxInt32`
exactly when the doubling wraps to a negative value; once at
`math.MaxInt32` it stays there, and the offset is untouched. -/
theorem fetch_size_growth_no_max (conf : Config) (st : PCState) (resp : FetchResponse)
    (block : FetchResponseBlock)
    (hthrottle : resp.throttleTimeMs = 0 ∨ resp.blocks ≠ [])
    (hblock : resp.getBlock st.topic st.partition = some block)
    (he : block.err = KError.noError)
    (hz : block.numRecords = 0)
    (htr : block.truncatedTrailingRecord = true)
    (hmax : conf.fetchMax ≤ 0) :
    (parseResponse conf st resp).sentErrors = [] ∧
    (parseResponse conf st resp).state.fetchSize =
      (if wrap32 (2 * st.fetchSize) < 0 then maxInt32 else wrap32 (2 * st.fetchSize)) ∧
    (st.fetchSize = maxInt32 →
      (parseResponse conf st resp).state.fetchSize = maxInt32) ∧
    (parseResponse conf st resp).state.offset = st.offset := by
  have heq : parseResponse conf st resp = handleTruncatedTrailing conf (applyPreferred st block) := by
    rw [parseResponse_eq_block conf st resp block hthrottle hblock,
      parseResponseBlock_zero conf st block he hz,
      handleZeroRecords_trunc conf _ block htr]
  have hno : ¬(conf.fetchMax > 0 ∧ (applyPreferred st block).fetchSize = conf.fetchMax) := by
    intro hcon
    omega
  rw [heq, handleTruncatedTrailing_grow conf _ hno]
  have hfs : (applyPreferred st block).fetchSize = st.fetchSize := applyPreferred_fetchSize st block
  have hclamp : ¬(conf.fetchMax > 0 ∧
      (if wrap32 (2 * (applyPreferred st block).fetchSize) < 0 then maxInt32
       else wrap32 (2 * (applyPreferred st block).fetchSize)) > conf.fetchMax) := by
    intro hcon
    omega
  refine ⟨rfl, ?_, ?_, ?_⟩
  · show (if conf.fetchMax > 0 ∧ _ > conf.fetchMax then conf.fetchMax else _) = _
    rw [if_neg hclamp, hfs]
  · intro hsat
    show (if conf.fetchMax > 0 ∧ _ > conf.fetchMax then conf.fetchMax else _) = maxInt32
    rw [if_neg hclamp, hfs, hsat]
    norm_num [wrap32, maxInt32]
  · show (applyPreferred st block).offset = st.offset
    rw [applyPreferred_offset]

/-- Witness for C9: applied at a saturated fetch size with no maximum. -/
theorem fetch_size_growth_no_max_witness :
    (parseResponse noMaxConf satState c3Resp).sentErrors = [] ∧
    (parseResponse noMaxConf satState c3Resp).state.fetchSize = maxInt32 :=
  ⟨(fetch_size_growth_no_max noMaxConf satState c3Resp c3Block
      (Or.inl (by decide)) (by decide) (by decide) (by decide) (by decide) (by decide)).1,
    (fetch_size_growth_no_max noMaxConf satState c3Resp c3Block
      (Or.inl (by decide)) (by decide) (by decide) (by decide) (by decide) (by decide)).2.2.1 rfl⟩

theorem consumeAborted_nil (last : Int) (aborted : List Int) :
    consumeAborted last [] aborted = ([], aborted) := rfl

theorem consumeAborted_cons (last : Int) (txn : AbortedTransaction)
    (rest : List AbortedTransaction) (aborted : List Int) :
    consumeAborted last (txn :: rest) aborted =
      if last < txn.firstOffset then (txn :: rest, aborted)
      else consumeAborted last rest
        (if txn.producerID ∈ aborted then aborted else aborted ++ [txn.producerID]) := rfl

theorem consumeAborted_spec (last : Int) (pending : List AbortedTransaction)
    (aborted : List Int) :
    (consumeAborted last pending aborted).1 =
      pending.dropWhile (fun txn => txn.firstOffset ≤ last) ∧
    (consumeAborted last pending aborted).2 =
      (pending.takeWhile (fun txn => txn.firstOffset ≤ last)).foldl
        (fun s txn => if txn.producerID ∈ s then s else s ++ [txn.producerID]) aborted := by
  induction pending generalizing aborted with
  | nil => simp [consumeAborted_nil]
  | cons txn rest ih =>
    rw [consumeAborted_cons]
    by_cases h : last < txn.firstOffset
    · rw [if_pos h]
      have hp : (decide (txn.firstOffset ≤ last)) = false := by
        simp
        omega
      rw [List.dropWhile_cons, List.takeWhile_cons, hp]
      simp
    · rw [if_neg h]
      have hp : (decide (txn.firstOffset ≤ last)) = true := by
        simp
        omega
      rw [List.dropWhile_cons, List.takeWhile_cons, hp]
      simpa using ih (if txn.producerID ∈ aborted then aborted else aborted ++ [txn.producerID])

theorem processRecordsEntry_control (conf : Config) (ls : LoopState) (batch : RecordBatch)
    (hc : batch.control = true) :
    processRecordsEntry conf ls (Records.defaultRecords batch) =
      ⟨(if batch.controlType = ControlRecordType.abort then
          (consumeAborted batch.lastOffset ls.pending ls.aborted).2.filter
            (fun pid => pid ≠ batch.producerID)
        else (consumeAborted batch.lastOffset ls.pending ls.aborted).2),
        (consumeAborted batch.lastOffset ls.pending ls.aborted).1,
        (parseRecords ls.child batch).1, ls.msgs⟩ := by
  simp [processRecordsEntry, hc]

theorem processRecordsEntry_abortedDrop (conf : Config) (ls : LoopState)
    (batch : RecordBatch) (hc : batch.control = false)
    (hiso : conf.isolationLevel = IsolationLevel.readCommitted)
    (ht : batch.isTransactional = true)
    (hmem : batch.producerID ∈ (consumeAborted batch.lastOffset ls.pending ls.aborted).2) :
    processRecordsEntry conf ls (Records.defaultRecords batch) =
      ⟨(consumeAborted batch.lastOffset ls.pending ls.aborted).2,
        (consumeAborted batch.lastOffset ls.pending ls.aborted).1,
        (parseRecords ls.child batch).1, ls.msgs⟩ := by
  simp [processRecordsEntry, hc, hiso, ht, hmem]

theorem processRecordsEntry_emit (conf : Config) (ls : LoopState) (batch : RecordBatch)
    (hc : batch.control = false)
    (hno : ¬(conf.isolationLevel = IsolationLevel.readCommitted ∧
      batch.isTransactional = true ∧
      batch.producerID ∈ (consumeAborted batch.lastOffset ls.pending ls.aborted).2)) :
    processRecordsEntry conf ls (Records.defaultRecords batch) =
      ⟨(consumeAborted batch.lastOffset ls.pending ls.aborted).2,
        (consumeAborted batch.lastOffset ls.pending ls.aborted).1,
        (parseRecords ls.child batch).1,
        ls.msgs ++ (parseRecords ls.child batch).2⟩ := by
  simp only [processRecordsEntry, hc]
  rw [if_neg hno]
  simp

/-- C2.  Under `ReadCommitted`, `parseResponse` builds the aborted set
by consuming the block's aborted-transactions list in order — inserting
the producer id of each entry whose first offset is at most the current
batch's last offset and popping it from the pending list; a control
batch is never delivered and an `Abort` control record removes its
producer id from the set; a transactional batch of a producer in the set
is dropped; every other batch's records are emitted.  Scenario S3: from
`abortedTransactions = [{7, 100}]` with batches 100 (txn, producer 7),
101 (abort control, producer 7) and 102 (plain), only offset 102 is
delivered, the set is `{7}` after batch 100 and empty after batch 101. -/
theorem aborted_txn_filtering :
    (∀ (last : Int) (pending : List AbortedTransaction) (aborted : List Int),
      (consumeAborted last pending aborted).1 =
        pending.dropWhile (fun txn => txn.firstOffset ≤ last) ∧
      (consumeAborted last pending aborted).2 =
        (pending.takeWhile (fun txn => txn.firstOffset ≤ last)).foldl
          (fun s txn => if txn.producerID ∈ s then s else s ++ [txn.producerID]) aborted) ∧
    (∀ (conf : Config) (ls : LoopState) (batch : RecordBatch), batch.control = true →
      (processRecordsEntry conf ls (Records.defaultRecords batch)).msgs = ls.msgs ∧
      (batch.controlType = ControlRecordType.abort →
        (processRecordsEntry conf ls (Records.defaultRecords batch)).aborted =
          (consumeAborted batch.lastOffset ls.pending ls.aborted).2.filter
            (fun pid => pid ≠ batch.producerID))) ∧
    (∀ (conf : Config) (ls : LoopState) (batch : RecordBatch),
      conf.isolationLevel = IsolationLevel.readCommitted →
      batch.control = false → batch.isTransactional = true →
      batch.producerID ∈ (consumeAborted batch.lastOffset ls.pending ls.aborted).2 →
      (processRecordsEntry conf ls (Records.defaultRecords batch)).msgs = ls.msgs) ∧
    (∀ (conf : Config) (ls : LoopState) (batch : RecordBatch),
      batch.control = false →
      ¬(conf.isolationLevel = IsolationLevel.readCommitted ∧
        batch.isTransactional = true ∧
        batch.producerID ∈ (consumeAborted batch.lastOffset ls.pending ls.aborted).2) →
      (processRecordsEntry conf ls (Records.defaultRecords batch)).msgs =
        ls.msgs ++ (parseRecords ls.child batch).2) ∧
    ((parseResponse rcConf st100 c2Resp).msgs.map ConsumerMessage.offset = [102] ∧
      (parseResponse rcConf st100 c2Resp).err = none ∧
      ([Records.defaultRecords c2BatchA].foldl (processRecordsEntry rcConf) c2Start).aborted
        = [7] ∧
      ([Records.defaultRecords c2BatchA].foldl (processRecordsEntry rcConf) c2Start).pending
        = [] ∧
      ([Records.defaultRecords c2BatchA, Records.defaultRecords c2BatchB].foldl
          (processRecordsEntry rcConf) c2Start).aborted = []) := by
  refine ⟨consumeAborted_spec, ?_, ?_, ?_, by decide, by decide, by decide, by decide, by decide⟩
  · intro conf ls batch hc
    rw [processRecordsEntry_control conf ls batch hc]
    refine ⟨rfl, ?_⟩
    intro habort
    rw [if_pos habort]
  · intro conf ls batch hiso hc ht hmem
    rw [processRecordsEntry_abortedDrop conf ls batch hc hiso ht hmem]
  · intro conf ls batch hc hno
    rw [processRecordsEntry_emit conf ls batch hc hno]

/-- Witness for C2: the control-batch and aborted-batch parts applied at
scenario S3's abort control batch and transactional batch. -/
theorem aborted_txn_filtering_witness :
    (processRecordsEntry rcConf c2Start (Records.defaultRecords c2BatchB)).msgs =
      c2Start.msgs ∧
    (processRecordsEntry rcConf c2Start (Records.defaultRecords c2BatchA)).msgs =
      c2Start.msgs :=
  ⟨((aborted_txn_filtering.2.1) rcConf c2Start c2BatchB (by decide)).1,
    (aborted_txn_filtering.2.2.1) rcConf c2Start c2BatchA (by decide) (by decide)
      (by decide) (by decide)⟩

/-- C10.  When `parseResponse` skips a control batch or (under
`ReadCommitted`) drops a transactional batch of an aborted producer, the
subscription's offset has nonetheless been advanced past the batch —
to one past the last record at or above the previous offset, or by 1
when the batch contributes no such record — because `parseRecords` runs
and commits the offset before the control/aborted filtering discards the
batch's messages; in particular the offset strictly increases, so the
skipped batch is never requested again. -/
theorem skipped_batches_advance_offset (conf : Config) (ls : LoopState)
    (batch : RecordBatch)
    (hsorted : List.Chain' (· < ·)
      (batch.records.map (fun r => batch.firstOffset + r.offsetDelta)))
    (hskip : batch.control = true ∨
      (conf.isolationLevel = IsolationLevel.readCommitted ∧
        batch.isTransactional = true ∧
        batch.producerID ∈ (consumeAborted batch.lastOffset ls.pending ls.aborted).2)) :
    (processRecordsEntry conf ls (Records.defaultRecords batch)).msgs = ls.msgs ∧
    (processRecordsEntry conf ls (Records.defaultRecords batch)).child.offset =
      (match (qualifiedOffsets batch ls.child.offset).getLast? with
        | some o => o + 1
        | none => ls.child.offset + 1) ∧
    ls.child.offset <
      (processRecordsEntry conf ls (Records.defaultRecords batch)).child.offset := by
  have hchild : (processRecordsEntry conf ls (Records.defaultRecords batch)).child =
        (parseRecords ls.child batch).1 ∧
      (processRecordsEntry conf ls (Records.defaultRecords batch)).msgs = ls.msgs := by
    by_cases hc : batch.control = true
    · rw [processRecordsEntry_control conf ls batch hc]
      exact ⟨rfl, rfl⟩
    · rcases hskip with hskip | hskip
      · exact absurd hskip hc
      · rw [processRecordsEntry_abortedDrop conf ls batch
          (Bool.not_eq_true _ ▸ hc) hskip.1 hskip.2.1 hskip.2.2]
        exact ⟨rfl, rfl⟩
  rcases hchild with ⟨hchild, hmsgs⟩
  have hoff := parseRecords_offset_sorted ls.child batch hsorted
  refine ⟨hmsgs, by rw [hchild, hoff], ?_⟩
  rw [hchild, hoff]
  rcases hq : (qualifiedOffsets batch ls.child.offset).getLast? with _ | o
  · show ls.child.offset < ls.child.offset + 1
    omega
  · have hmem : o ∈ qualifiedOffsets batch ls.child.offset :=
      List.mem_of_mem_getLast? (by rw [hq]; rfl)
    have hge : ls.child.offset ≤ o := by
      have := List.of_mem_filter hmem
      simpa using this
    show ls.child.offset < o + 1
    omega

/-- Witness for C10: the abort control batch of scenario S3, processed
from a loop state at offset 100, advances the cursor to 102 and exposes
nothing. -/
theorem skipped_batches_advance_offset_witness :
    (processRecordsEntry rcConf c2Start (Records.defaultRecords c2BatchB)).msgs =
      c2Start.msgs ∧
    c2Start.child.offset <
      (processRecordsEntry rcConf c2Start (Records.defaultRecords c2BatchB)).child.offset :=
  ⟨(skipped_batches_advance_offset rcConf c2Start c2BatchB (by simp [c2BatchB])
      (Or.inl (by decide))).1,
    (skipped_batches_advance_offset rcConf c2Start c2BatchB (by simp [c2BatchB])
      (Or.inl (by decide))).2.2⟩

theorem isAtLeast_iff (a b : KafkaVersion) :
    isAtLeast a b = true ↔
      (b.v0 < a.v0 ∨ (a.v0 = b.v0 ∧
        (b.v1 < a.v1 ∨ (a.v1 = b.v1 ∧
          (b.v2 < a.v2 ∨ (a.v2 = b.v2 ∧ b.v3 ≤ a.v3)))))) := by
  unfold isAtLeast
  split_ifs <;> simp <;> omega

theorem isAtLeast_trans (a b c : KafkaVersion)
    (h1 : isAtLeast a b = true) (h2 : isAtLeast b c = true) :
    isAtLeast a c = true := by
  rw [isAtLeast_iff] at *
  omega

/-- C7.  For every configured broker version, `fetchNewMessages` picks
the fetch request version of the greatest satisfied broker-version
threshold (1 for ≥0.9, 2 for ≥0.10.0, 3 for ≥0.10.1 which also sets
`MaxBytes`, 5 for ≥0.11 which also attaches the isolation level, 6 for
≥1.0, 7 for ≥1.1, 8 for ≥2.0, 10 for ≥2.1, 11 for ≥2.3 which also
attaches the rack id); and whenever the chosen version is at least 7,
the fetch session is disabled with `SessionID = 0` and
`SessionEpoch = -1`. -/
theorem fetch_version_negotiation (conf : Config) :
    (fetchNewMessagesRequest conf).version = specFetchVersion conf.version ∧
    (isAtLeast conf.version V0_10_1_0 = true →
      (fetchNewMessagesRequest conf).maxBytes = MaxResponseSize) ∧
    (isAtLeast conf.version V0_11_0_0 = true →
      (fetchNewMessagesRequest conf).isolation = conf.isolationLevel) ∧
    (isAtLeast conf.version V2_3_0_0 = true →
      (fetchNewMessagesRequest conf).rackID = conf.rackID) ∧
    (7 ≤ (fetchNewMessagesRequest conf).version →
      (fetchNewMessagesRequest conf).sessionID = 0 ∧
      (fetchNewMessagesRequest conf).sessionEpoch = -1) := by
  have t98 : isAtLeast V2_3_0_0 V2_1_0_0 = true := by decide
  have t87 : isAtLeast V2_1_0_0 V2_0_0_0 = true := by decide
  have t76 : isAtLeast V2_0_0_0 V1_1_0_0 = true := by decide
  have t65 : isAtLeast V1_1_0_0 V1_0_0_0 = true := by decide
  have t54 : isAtLeast V1_0_0_0 V0_11_0_0 = true := by decide
  have t43 : isAtLeast V0_11_0_0 V0_10_1_0 = true := by decide
  have t32 : isAtLeast V0_10_1_0 V0_10_0_0 = true := by decide
  have t21 : isAtLeast V0_10_0_0 V0_9_0_0 = true := by decide
  by_cases h9 : isAtLeast conf.version V2_3_0_0 = true
  · have h8 := isAtLeast_trans _ _ _ h9 t98
    have h7 := isAtLeast_trans _ _ _ h8 t87
    have h6 := isAtLeast_trans _ _ _ h7 t76
    have h5 := isAtLeast_trans _ _ _ h6 t65
    have h4 := isAtLeast_trans _ _ _ h5 t54
    have h3 := isAtLeast_trans _ _ _ h4 t43
    have h2 := isAtLeast_trans _ _ _ h3 t32
    have h1 := isAtLeast_trans _ _ _ h2 t21
    simp [fetchNewMessagesRequest, specFetchVersion, h1, h2, h3, h4, h5, h6, h7, h8, h9]
  · rw [Bool.not_eq_true] at h9
    by_cases h8 : isAtLeast conf.version V2_1_0_0 = true
    · have h7 := isAtLeast_trans _ _ _ h8 t87
      have h6 := isAtLeast_trans _ _ _ h7 t76
      have h5 := isAtLeast_trans _ _ _ h6 t65
      have h4 := isAtLeast_trans _ _ _ h5 t54
      have h3 := isAtLeast_trans _ _ _ h4 t43
      have h2 := isAtLeast_trans _ _ _ h3 t32
      have h1 := isAtLeast_trans _ _ _ h2 t21
      simp [fetchNewMessagesRequest, specFetchVersion, h1, h2, h3, h4, h5, h6, h7, h8, h9]
    · rw [Bool.not_eq_true] at h8
      by_cases h7 : isAtLeast conf.version V2_0_0_0 = true
      · have h6 := isAtLeast_trans _ _ _ h7 t76
        have h5 := isAtLeast_trans _ _ _ h6 t65
        have h4 := isAtLeast_trans _ _ _ h5 t54
        have h3 := isAtLeast_trans _ _ _ h4 t43
        have h2 := isAtLeast_trans _ _ _ h3 t32
        have h1 := isAtLeast_trans _ _ _ h2 t21
        simp [fetchNewMessagesRequest, specFetchVersion, h1, h2, h3, h4, h5, h6, h7, h8, h9]
      · rw [Bool.not_eq_true] at h7
        by_cases h6 : isAtLeast conf.version V1_1_0_0 = true
        · have h5 := isAtLeast_trans _ _ _ h6 t65
          have h4 := isAtLeast_trans _ _ _ h5 t54
          have h3 := isAtLeast_trans _ _ _ h4 t43
          have h2 := isAtLeast_trans _ _ _ h3 t32
          have h1 := isAtLeast_trans _ _ _ h2 t21
          simp [fetchNewMessagesRequest, specFetchVersion, h1, h2, h3, h4, h5, h6, h7, h8, h9]
        · rw [Bool.not_eq_true] at h6
          by_cases h5 : isAtLeast conf.version V1_0_0_0 = true
          · have h4 := isAtLeast_trans _ _ _ h5 t54
            have h3 := isAtLeast_trans _ _ _ h4 t43
            have h2 := isAtLeast_trans _ _ _ h3 t32
            have h1 := isAtLeast_trans _ _ _ h2 t21
            simp [fetchNewMessagesRequest, specFetchVersion, h1, h2, h3, h4, h5, h6, h7, h8, h9]
          · rw [Bool.not_eq_true] at h5
            by_cases h4 : isAtLeast conf.version V0_11_0_0 = true
            · have h3 := isAtLeast_trans _ _ _ h4 t43
              have h2 := isAtLeast_trans _ _ _ h3 t32
              have h1 := isAtLeast_trans _ _ _ h2 t21
              simp [fetchNewMessagesRequest, specFetchVersion, h1, h2, h3, h4, h5, h6, h7, h8, h9]
            · rw [Bool.not_eq_true] at h4
              by_cases h3 : isAtLeast conf.version V0_10_1_0 = true
              · have h2 := isAtLeast_trans _ _ _ h3 t32
                have h1 := isAtLeast_trans _ _ _ h2 t21
                simp [fetchNewMessagesRequest, specFetchVersion, h1, h2, h3, h4, h5, h6, h7, h8, h9]
              · rw [Bool.not_eq_true] at h3
                by_cases h2 : isAtLeast conf.version V0_10_0_0 = true
                · have h1 := isAtLeast_trans _ _ _ h2 t21
                  simp [fetchNewMessagesRequest, specFetchVersion, h1, h2, h3, h4, h5, h6, h7, h8, h9]
                · rw [Bool.not_eq_true] at h2
                  by_cases h1 : isAtLeast conf.version V0_9_0_0 = true
                  · simp [fetchNewMessagesRequest, specFetchVersion, h1, h2, h3, h4, h5, h6, h7, h8, h9]
                  · rw [Bool.not_eq_true] at h1
                    simp [fetchNewMessagesRequest, specFetchVersion, h1, h2, h3, h4, h5, h6, h7, h8, h9]

/-- Witness for C7: applied at broker version 2.3.0.0, whose chosen
fetch version is 11, with `MaxBytes`, isolation, rack id and the
disabled fetch session all attached. -/
theorem fetch_version_negotiation_witness :
    (fetchNewMessagesRequest baseConf).version = specFetchVersion baseConf.version ∧
    (fetchNewMessagesRequest baseConf).maxBytes = MaxResponseSize ∧
    (fetchNewMessagesRequest baseConf).isolation = baseConf.isolationLevel ∧
    (fetchNewMessagesRequest baseConf).rackID = baseConf.rackID ∧
    (fetchNewMessagesRequest baseConf).sessionID = 0 ∧
    (fetchNewMessagesRequest baseConf).sessionEpoch = -1 :=
  ⟨(fetch_version_negotiation baseConf).1,
    (fetch_version_negotiation baseConf).2.1 (by decide),
    (fetch_version_negotiation baseConf).2.2.1 (by decide),
    (fetch_version_negotiation baseConf).2.2.2.1 (by decide),
    ((fetch_version_negotiation baseConf).2.2.2.2 (by decide)).1,
    ((fetch_version_negotiation baseConf).2.2.2.2 (by decide)).2⟩

end Sarama

